import Mathlib

/-!
Verification of the CIP tag-protocol layer of `pycomm3/ab_comm/clx.py`
(`Driver`, an EtherNet/IP client for Rockwell Logix controllers).

Each operation that a claim depends on is embedded as an executable Lean
definition translated from the Python source.  Collaborators that live in
`pycomm3.cip.cip_base` (the codec tables and `create_tag_rp`) are not part of
the available source tree; where a claim needs them they are modelled from the
specification and marked as such in their doc comments.

Bytes are modelled as natural numbers below 256, byte strings as `List Nat`,
Python integers as `Int` (arbitrary precision, two's-complement bitwise
semantics via `Int.land` / `Int.lnot`), and fallible Python code (exceptions,
`KeyError`, `struct.error`) as `Option` / `Except` results.  Two uniform
simplifications: the per-session sequence number prepended to every framed
message is omitted (it never influences a claim), and the interpolated tag
names inside Python status strings are dropped (the status code and the
fixed part of the text are kept).
-/

namespace Clx

/-- CIP general status code for success. -/
def SUCCESS : Nat := 0

/-! ### Fragmented exchanges (claim C1)

`Driver._parse_fragment` (clx.py lines 197-236) decodes one fragment of a
`Read Tag Fragmented` reply and then updates the loop state of `read_array`;
`Driver._parse_template` (lines 176-195) accumulates one fragment of a
`Read Template` reply and updates the loop state of `_read_template`. -/

/-- Embeds the status dispatch at the end of `Driver._parse_fragment`
(clx.py lines 229-236).  Input: the length of the fragment payload after the
two data-type bytes, the CIP general status, and the current `_byte_offset`.
Output: the new `_byte_offset` and the `_status` error record, if one was set.
The value-decoding loop that precedes this block (lines 213-227) only appends
decoded values to `_tag_list` and does not touch `_byte_offset`. -/
def parse_fragment_update (fragment_returned_length : Nat) (status : Nat)
    (byte_offset : Int) : Int × Option (Nat × String) :=
  if status = SUCCESS then (-1, none)
  else if status = 6 then (byte_offset + fragment_returned_length, none)
  else (-1, some (2, "fragment error with extended status"))

/-- Guard of the fragmentation loop in `Driver.read_array`
(clx.py line 477: `while self._byte_offset != -1`). -/
def read_array_loop_continues (byte_offset : Int) : Bool :=
  byte_offset != -1

/-- The per-reply mutable state touched by `Driver._parse_template`. -/
structure TemplateLoopState where
  byte_offset : Int
  get_template_in_progress : Bool
  status_err : Option (Nat × String)
  last_instance : Int
deriving DecidableEq

/-- Embeds `Driver._parse_template` (clx.py lines 182-195).  `bytes_received`
is the length of the reply payload from offset 50 on; the whole payload is
appended to `_buffer` (not modelled here), and then the loop state is updated
from the CIP general status.  Note that on an unknown status the code sets
`_last_instance` (a slip: that variable belongs to the symbol-enumeration
loop) and leaves `_get_template_in_progress` untouched. -/
def parse_template_update (bytes_received : Nat) (status : Nat)
    (s : TemplateLoopState) : TemplateLoopState :=
  if status = SUCCESS then { s with get_template_in_progress := false }
  else if status = 6 then { s with byte_offset := s.byte_offset + bytes_received }
  else { s with status_err := some (1, "unknown status during _parse_template"),
                last_instance := -1 }

/-- Guard of the template fragmentation loop in `Driver._read_template`
(clx.py line 855: `while self._get_template_in_progress`). -/
def read_template_loop_continues (s : TemplateLoopState) : Bool :=
  s.get_template_in_progress

/-- C1, counterexample.  The claim states that the fragmented-exchange loop
terminates only on a reply with general status 0x00; but `_parse_fragment`
sets `_byte_offset` to -1 (ending the `read_array` loop) on any status other
than 0x00 and 0x06 as well, for example on status 0x04. -/
theorem C1_counterexample :
    (parse_fragment_update 10 4 0).1 = -1 ∧
    read_array_loop_continues (parse_fragment_update 10 4 0).1 = false ∧
    (4 : Nat) ≠ SUCCESS := by
  refine ⟨by decide, by decide, by decide⟩

/-- C1, amended.  Within a single fragmented exchange the byte offset is
increased by exactly the length of each fragment on every status-0x06 reply
(for both `read_array` and `_read_template`); the `_read_template` loop
terminates only on general status 0x00; the `read_array` loop terminates on
general status 0x00 and, in addition, with an error recorded in `_status`, on
any status other than 0x00 and 0x06. -/
theorem C1_amended_fragment_loop (fragLen bytesReceived : Nat)
    (off : Int) (errStatus otherStatus : Nat) (s : TemplateLoopState) :
    parse_fragment_update fragLen 6 off = (off + fragLen, none) ∧
    parse_fragment_update fragLen SUCCESS off = (-1, none) ∧
    (errStatus ≠ SUCCESS → errStatus ≠ 6 →
      (parse_fragment_update fragLen errStatus off).1 = -1 ∧
      ((parse_fragment_update fragLen errStatus off).2).isSome = true) ∧
    (parse_template_update bytesReceived 6 s).byte_offset = s.byte_offset + bytesReceived ∧
    (parse_template_update bytesReceived 6 s).get_template_in_progress
      = s.get_template_in_progress ∧
    (s.get_template_in_progress = true →
      (parse_template_update bytesReceived otherStatus s).get_template_in_progress = false →
      otherStatus = SUCCESS) := by
  refine ⟨?_, ?_, ?_, ?_, ?_, ?_⟩
  · simp [parse_fragment_update, SUCCESS]
  · simp [parse_fragment_update, SUCCESS]
  · intro h0 h6
    simp only [SUCCESS] at h0
    simp [parse_fragment_update, SUCCESS, h0, h6]
  · simp [parse_template_update, SUCCESS]
  · simp [parse_template_update, SUCCESS]
  · intro hin hterm
    by_cases h0 : otherStatus = SUCCESS
    · exact h0
    · exfalso
      simp only [SUCCESS] at h0
      by_cases h6 : otherStatus = 6 <;>
        simp [parse_template_update, SUCCESS, h0, h6, hin] at hterm

/-- C1 witness: the amended theorem applied at concrete inputs, discharging
every hypothesis. -/
theorem C1_witness :
    (parse_fragment_update 8 4 16).1 = -1 ∧
    ((parse_fragment_update 8 4 16).2).isSome = true ∧
    (0 : Nat) = SUCCESS := by
  have h := C1_amended_fragment_loop 8 8 16 4 0
    ⟨0, true, none, 0⟩
  refine ⟨(h.2.2.1 (by decide) (by decide)).1,
          (h.2.2.1 (by decide) (by decide)).2, ?_⟩
  exact h.2.2.2.2.2 rfl (by decide)

/-! ### Byte-level codec helpers

Little-endian unpacking as performed by `pack.py`'s `unpack_uint` (2-byte
unsigned `<H`) and `unpack_dint` (4-byte signed `<i`).  `struct.unpack` raises
on a slice of the wrong length, hence the `Option` results. -/

/-- Little-endian value of a byte list (least significant byte first). -/
def unpackLE (bs : List Nat) : Nat :=
  bs.foldr (fun b acc => b + 256 * acc) 0

/-- Two's-complement reinterpretation of an unsigned `w`-bit value. -/
def toSigned (w : Nat) (n : Nat) : Int :=
  if n < 2 ^ (w - 1) then (n : Int) else (n : Int) - 2 ^ w

/-- `unpack_uint`: 2-byte little-endian unsigned; fails on any other length. -/
def unpack_uint (bs : List Nat) : Option Nat :=
  if bs.length = 2 then some (unpackLE bs) else none

/-- `unpack_dint`: 4-byte little-endian signed; fails on any other length. -/
def unpack_dint (bs : List Nat) : Option Int :=
  if bs.length = 4 then some (toSigned 32 (unpackLE bs)) else none

/-- Python slice `bs[a:b]` (total: short or empty when out of range). -/
def pySlice (bs : List Nat) (a b : Nat) : List Nat :=
  (bs.drop a).take (b - a)

/-! ### Symbol enumeration (claim C6)

`Driver._parse_instance_attribute_list` (clx.py lines 89-123) parses one
`Get Instance Attributes List` reply into `SymbolEntryRaw` records and then
sets `_last_instance`, the loop variable of
`_get_instance_attribute_list_service` (lines 755-798, guard
`while self._last_instance != -1` on line 758). -/

/-- One record delivered by Get Instance Attributes List: instance id
(4-byte signed decode), raw name bytes, and 16-bit symbol type. -/
structure SymbolEntryRaw where
  instance_id : Int
  tag_name : List Nat
  symbol_type : Nat
deriving DecidableEq

/-- Record-parsing loop of `_parse_instance_attribute_list` (lines 97-113):
`while idx < tags_returned_length` read `<instance:dint> <len:uint>
<name:len bytes> <symbol_type:uint>`.  `instVar` mirrors the Python local
`instance` (initialised to 0 and overwritten by every record); any short
slice makes `struct.unpack` raise, modelled as `none`.  `fuel` bounds the
recursion and is initialised to the byte-string length, which each
iteration strictly decreases. -/
def parseIALAux : Nat → List Nat → Int → List SymbolEntryRaw →
    Option (List SymbolEntryRaw × Int)
  | _, [], instVar, acc => some (acc.reverse, instVar)
  | 0, _ :: _, _, _ => none
  | fuel + 1, b :: bs, _, acc =>
    match unpack_dint ((b :: bs).take 4) with
    | none => none
    | some inst =>
      match unpack_uint (((b :: bs).drop 4).take 2) with
      | none => none
      | some tagLength =>
        match unpack_uint (((((b :: bs).drop 4).drop 2).drop tagLength).take 2) with
        | none => none
        | some symbolType =>
          parseIALAux fuel (((((b :: bs).drop 4).drop 2).drop tagLength).drop 2) inst
            ({ instance_id := inst,
               tag_name := (((b :: bs).drop 4).drop 2).take tagLength,
               symbol_type := symbolType } :: acc)

/-- Embeds `Driver._parse_instance_attribute_list` (lines 89-123):
parse all records from the reply payload (offset 50 onward), then set
`_last_instance` from the CIP general status, recording an error in
`_status` on an unknown status.  Result: `(tag_list, last_instance,
status_error)`; `none` when parsing raised `DataError`. -/
def parse_instance_attribute_list (tagsReturned : List Nat) (status : Nat) :
    Option (List SymbolEntryRaw × Int × Option (Nat × String)) :=
  (parseIALAux tagsReturned.length tagsReturned 0 []).map fun pr =>
    if status = SUCCESS then (pr.1, -1, none)
    else if status = 6 then (pr.1, pr.2 + 1, none)
    else (pr.1, -1, some (1, "unknown status during _parse_tag_list"))

/-- Guard of the symbol-enumeration loop (clx.py line 758). -/
def symbol_enum_loop_continues (last_instance : Int) : Bool :=
  last_instance != -1

/-- The `instVar` returned by `parseIALAux` is the instance id of the last
entry parsed, or the initial value when no record was consumed. -/
theorem parseIALAux_instVar (fuel : Nat) (bytes : List Nat) (instVar : Int)
    (acc : List SymbolEntryRaw) (entries : List SymbolEntryRaw) (finalInst : Int)
    (h : parseIALAux fuel bytes instVar acc = some (entries, finalInst)) :
    (entries = acc.reverse ∧ finalInst = instVar) ∨
    (∃ e, entries.getLast? = some e ∧ finalInst = e.instance_id) := by
  induction fuel generalizing bytes instVar acc entries finalInst with
  | zero =>
    cases bytes with
    | nil =>
      simp only [parseIALAux, Option.some.injEq, Prod.mk.injEq] at h
      exact Or.inl ⟨h.1.symm, h.2.symm⟩
    | cons b bs => simp [parseIALAux] at h
  | succ n ih =>
    cases bytes with
    | nil =>
      simp only [parseIALAux, Option.some.injEq, Prod.mk.injEq] at h
      exact Or.inl ⟨h.1.symm, h.2.symm⟩
    | cons b bs =>
      rw [parseIALAux] at h
      split at h
      · exact absurd h (by simp)
      split at h
      · exact absurd h (by simp)
      split at h
      · exact absurd h (by simp)
      rcases ih _ _ _ _ _ h with ⟨he, hf⟩ | ⟨e, he, hf⟩
      · rw [he, List.reverse_cons]
        exact Or.inr ⟨_, List.getLast?_concat _, hf⟩
      · exact Or.inr ⟨e, he, hf⟩

/-- C6: after each Get Instance Attributes List reply is parsed, general
status SUCCESS sets `_last_instance := -1` (ending the enumeration loop);
status 0x06 sets `_last_instance` to the last instance id seen in the reply
plus one and the loop continues (whenever that id is nonnegative, as CIP
instance ids are); any other status records an error in `_status` and ends
the loop. -/
theorem C6_instance_list_loop (tagsReturned : List Nat) (status : Nat)
    (entries : List SymbolEntryRaw) (lastInstance : Int) (err : Option (Nat × String))
    (h : parse_instance_attribute_list tagsReturned status
          = some (entries, lastInstance, err)) :
    (status = SUCCESS → lastInstance = -1 ∧ err = none ∧
      symbol_enum_loop_continues lastInstance = false) ∧
    (status = 6 → err = none ∧
      ((entries = [] ∧ lastInstance = 1) ∨
        ∃ e, entries.getLast? = some e ∧ lastInstance = e.instance_id + 1) ∧
      (∀ e, entries.getLast? = some e → 0 ≤ e.instance_id →
        symbol_enum_loop_continues lastInstance = true)) ∧
    (status ≠ SUCCESS → status ≠ 6 → lastInstance = -1 ∧ err.isSome = true ∧
      symbol_enum_loop_continues lastInstance = false) := by
  rw [parse_instance_attribute_list] at h
  rcases hp : parseIALAux tagsReturned.length tagsReturned 0 [] with _ | ⟨pentries, instVar⟩ <;>
    rw [hp] at h
  · exact absurd h (by simp)
  simp only [Option.map_some'] at h
  have hinv := parseIALAux_instVar _ _ _ _ _ _ hp
  refine ⟨?_, ?_, ?_⟩
  · intro h0
    rw [if_pos h0] at h
    simp only [Option.some.injEq, Prod.mk.injEq] at h
    refine ⟨h.2.1.symm, h.2.2.symm, ?_⟩
    rw [← h.2.1]
    decide
  · intro h6
    have h0 : status ≠ SUCCESS := by rw [h6]; decide
    rw [if_neg h0, if_pos h6] at h
    simp only [Option.some.injEq, Prod.mk.injEq] at h
    obtain ⟨hent, hlast, herr⟩ := h
    subst hent
    refine ⟨herr.symm, ?_, ?_⟩
    · rcases hinv with ⟨he, hf⟩ | ⟨e, he, hf⟩
      · exact Or.inl ⟨by simpa using he, by omega⟩
      · exact Or.inr ⟨e, he, by omega⟩
    · intro e he hnn
      rcases hinv with ⟨hemp, hf⟩ | ⟨e', he', hf⟩
      · rw [hemp] at he; simp at he
      · rw [he'] at he
        cases he
        rw [symbol_enum_loop_continues, ← hlast, hf]
        have : (-1 : Int) ≠ e.instance_id + 1 := by omega
        simpa using this.symm
  · intro h0 h6
    rw [if_neg h0, if_neg h6] at h
    simp only [Option.some.injEq, Prod.mk.injEq] at h
    refine ⟨h.2.1.symm, by rw [← h.2.2]; rfl, ?_⟩
    rw [← h.2.1]
    decide

/-- C6 witness: the theorem applied to a concrete two-record reply under each
of the three statuses, with every hypothesis discharged concretely. -/
theorem C6_witness :
    (parse_instance_attribute_list
        [7, 0, 0, 0, 1, 0, 65, 42, 0, 9, 0, 0, 0, 1, 0, 66, 43, 0] 6).isSome = true := by
  have h6 := C6_instance_list_loop
    [7, 0, 0, 0, 1, 0, 65, 42, 0, 9, 0, 0, 0, 1, 0, 66, 43, 0] 6
    [⟨7, [65], 42⟩, ⟨9, [66], 43⟩] 10 none (by decide)
  have h0 := C6_instance_list_loop [] SUCCESS [] (-1) none (by decide)
  have h4 := C6_instance_list_loop [] 4 [] (-1) (some (1, "unknown status during _parse_tag_list"))
    (by decide)
  have := (h6.2.1 rfl).2.2 ⟨9, [66], 43⟩ (by decide) (by decide)
  have := (h0.1 rfl).1
  have := (h4.2.2 (by decide) (by decide)).1
  decide

/-! ### Codec tables (modelled from the spec)

The tables live in `pycomm3.cip.cip_base`, which is not part of the available
source tree; they are reconstructed here from the specification. -/

/-- The atomic CIP types of the data model (spec section 3, CipType). -/
inductive CipType
  | BOOL | SINT | INT | DINT | LINT | REAL | BYTE | WORD | DWORD | LWORD
deriving DecidableEq

/-- Modelled from the spec: `S_DATA_TYPE`, the total mapping
`CipType → type_code` of the Codec (spec section 3); the codes are the
standard CIP elementary type codes (scenario S1 of the spec fixes
`DINT = 0xC4`). -/
def S_DATA_TYPE : CipType → Nat
  | .BOOL => 0xC1
  | .SINT => 0xC2
  | .INT => 0xC3
  | .DINT => 0xC4
  | .LINT => 0xC5
  | .REAL => 0xCA
  | .BYTE => 0xD1
  | .WORD => 0xD2
  | .DWORD => 0xD3
  | .LWORD => 0xD4

/-- Modelled from the spec: `I_DATA_TYPE`, the mapping `type_code → CipType`
of the Codec (spec section 3), inverse of `S_DATA_TYPE`; a lookup of any
other code raises `KeyError` in Python, modelled as `none`. -/
def I_DATA_TYPE (code : Nat) : Option CipType :=
  if code = 0xC1 then some .BOOL
  else if code = 0xC2 then some .SINT
  else if code = 0xC3 then some .INT
  else if code = 0xC4 then some .DINT
  else if code = 0xC5 then some .LINT
  else if code = 0xCA then some .REAL
  else if code = 0xD1 then some .BYTE
  else if code = 0xD2 then some .WORD
  else if code = 0xD3 then some .DWORD
  else if code = 0xD4 then some .LWORD
  else none

/-- Printable name of a `CipType`, as the Python string keys of the tables. -/
def CipType.name : CipType → String
  | .BOOL => "BOOL"
  | .SINT => "SINT"
  | .INT => "INT"
  | .DINT => "DINT"
  | .LINT => "LINT"
  | .REAL => "REAL"
  | .BYTE => "BYTE"
  | .WORD => "WORD"
  | .DWORD => "DWORD"
  | .LWORD => "LWORD"

/-! ### String helpers (Python `in` on strings) -/

/-- Whether `p` starts the list `l` (element-wise comparison). -/
def leadsWith : List Char → List Char → Bool
  | [], _ => true
  | _ :: _, [] => false
  | a :: as, b :: bs => a = b && leadsWith as bs

/-- Whether `needle` occurs as a contiguous sublist of `hay`. -/
def containsSub (needle : List Char) : List Char → Bool
  | [] => needle.isEmpty
  | h :: t => leadsWith needle (h :: t) || containsSub needle t

/-- Python `needle in hay` for strings. -/
def strContains (hay needle : String) : Bool :=
  containsSub needle.toList hay.toList

/-! ### User-tag isolation (claim C2)

`Driver._isolating_user_tag` (clx.py lines 887-933) filters the raw symbol
list and decodes each surviving `symbol_type` bitfield. -/

/-- A raw symbol entry after its name has been UTF-8 decoded
(`tag['tag_name'].decode()`, line 892). -/
structure DecodedSymbol where
  instance_id : Int
  tag_name : String
  symbol_type : Nat
deriving DecidableEq

/-- The shape of an emitted tag.  The constant Python fields are left
implicit: a struct entry also carries `tag_type = 'struct'`,
`data_type = 'user-created'` and empty `template` / `udt` dicts; an atomic
entry carries `tag_type = 'atomic'`. -/
inductive IsolatedTag
  | struct (instance_id : Int) (template_instance_id : Nat) (tag_name : String)
      (dim : Nat)
  | atomicBool (instance_id : Int) (tag_name : String) (dim : Nat)
      (data_type : CipType) (bit_position : Nat)
  | atomic (instance_id : Int) (tag_name : String) (dim : Nat)
      (data_type : CipType)
deriving DecidableEq

/-- Outcome of processing one entry inside the loop of
`_isolating_user_tag`. -/
inductive IsolateResult
  | program (name : String)
  | skipped
  | emitted (tag : IsolatedTag)
deriving DecidableEq

/-- Embeds the loop body of `Driver._isolating_user_tag` (clx.py lines
891-931) for one decoded entry.  Names containing `Program:` go to
`_program_names`; names with `:` or `__`, and entries with bit 12 set, are
skipped; bit 15 selects struct vs atomic; an unknown atomic type code makes
`I_DATA_TYPE[...]` raise (`Except.error`, wrapped into `DataError` by the
surrounding `try`). -/
def isolate_one (t : DecodedSymbol) : Except String IsolateResult :=
  if strContains t.tag_name "Program:" then .ok (.program t.tag_name)
  else if strContains t.tag_name ":" || strContains t.tag_name "__" then .ok .skipped
  else if t.symbol_type &&& 0b0001000000000000 ≠ 0 then .ok .skipped
  else
    if t.symbol_type &&& 0b1000000000000000 ≠ 0 then
      .ok (.emitted (.struct t.instance_id
        (t.symbol_type &&& 0b0000111111111111) t.tag_name
        ((t.symbol_type &&& 0b0110000000000000) >>> 13)))
    else
      match I_DATA_TYPE (t.symbol_type &&& 0b0000000011111111) with
      | none => .error "KeyError: I_DATA_TYPE"
      | some dt =>
        if t.symbol_type &&& 0b0000000011111111 = S_DATA_TYPE .BOOL then
          .ok (.emitted (.atomicBool t.instance_id t.tag_name
            ((t.symbol_type &&& 0b0110000000000000) >>> 13) dt
            ((t.symbol_type &&& 0b0000011100000000) >>> 8)))
        else
          .ok (.emitted (.atomic t.instance_id t.tag_name
            ((t.symbol_type &&& 0b0110000000000000) >>> 13) dt))

/-- Whether an emitted tag is a struct entry. -/
def IsolatedTag.isStruct : IsolatedTag → Bool
  | .struct _ _ _ _ => true
  | _ => false

/-- Template instance id of a struct entry. -/
def IsolatedTag.templateInstanceId? : IsolatedTag → Option Nat
  | .struct _ tid _ _ => some tid
  | _ => none

/-- Data type of an atomic entry. -/
def IsolatedTag.dataType? : IsolatedTag → Option CipType
  | .atomicBool _ _ _ dt _ => some dt
  | .atomic _ _ _ dt => some dt
  | _ => none

/-- Bit position of an atomic BOOL entry. -/
def IsolatedTag.bitPosition? : IsolatedTag → Option Nat
  | .atomicBool _ _ _ _ bp => some bp
  | _ => none

/-- Masking with `0x0700` and shifting by 8 equals shifting by 8 and
masking with `0b111` (the form used by the claim). -/
theorem and_0x700_shiftRight_8 (S : Nat) :
    (S &&& 0x0700) >>> 8 = (S >>> 8) &&& 0b111 := by
  have key : ∀ i, Nat.testBit 0x0700 (8 + i) = Nat.testBit 7 i := by
    intro i
    rw [Nat.testBit_to_div_mod, Nat.testBit_to_div_mod, pow_add,
      ← Nat.div_div_eq_div_mul]
    norm_num
  apply Nat.eq_of_testBit_eq
  intro i
  simp only [Nat.testBit_shiftRight, Nat.testBit_and]
  rw [key i]

/-- C2: every entry emitted by the user-tag isolation step is classified as a
struct iff bit 15 of its `symbol_type` is set; a struct entry's template
instance id is `S & 0x0FFF`; an atomic entry's data type is
`I_DATA_TYPE[S & 0xFF]`; and a BOOL entry's bit position is
`(S >> 8) & 0b111`. -/
theorem C2_symbol_type_classification (t : DecodedSymbol) (res : IsolatedTag)
    (h : isolate_one t = .ok (.emitted res)) :
    (res.isStruct = true ↔ t.symbol_type &&& 0x8000 ≠ 0) ∧
    (res.isStruct = true →
      res.templateInstanceId? = some (t.symbol_type &&& 0x0FFF)) ∧
    (res.isStruct = false →
      res.dataType? = I_DATA_TYPE (t.symbol_type &&& 0xFF)) ∧
    (∀ bp, res.bitPosition? = some bp → bp = (t.symbol_type >>> 8) &&& 0b111) := by
  rw [isolate_one] at h
  split at h
  · exact absurd h (by simp)
  split at h
  · exact absurd h (by simp)
  split at h
  · exact absurd h (by simp)
  split at h
  · -- struct branch
    rename_i hbit15
    simp only [Except.ok.injEq, IsolateResult.emitted.injEq] at h
    subst h
    refine ⟨by simpa [IsolatedTag.isStruct] using hbit15, ?_, ?_, ?_⟩
    · intro _; rfl
    · intro hfalse; simp [IsolatedTag.isStruct] at hfalse
    · intro bp hbp; simp [IsolatedTag.bitPosition?] at hbp
  · -- atomic branch
    rename_i hbit15
    split at h
    · exact absurd h (by simp)
    rename_i dt hdt
    split at h
    · -- BOOL
      simp only [Except.ok.injEq, IsolateResult.emitted.injEq] at h
      subst h
      refine ⟨?_, ?_, ?_, ?_⟩
      · constructor
        · intro hs; simp [IsolatedTag.isStruct] at hs
        · intro hs; exact absurd hs hbit15
      · intro hs; simp [IsolatedTag.isStruct] at hs
      · intro _; simp [IsolatedTag.dataType?, hdt]
      · intro bp hbp
        simp only [IsolatedTag.bitPosition?, Option.some.injEq] at hbp
        rw [← hbp, and_0x700_shiftRight_8]
    · -- other atomic
      simp only [Except.ok.injEq, IsolateResult.emitted.injEq] at h
      subst h
      refine ⟨?_, ?_, ?_, ?_⟩
      · constructor
        · intro hs; simp [IsolatedTag.isStruct] at hs
        · intro hs; exact absurd hs hbit15
      · intro hs; simp [IsolatedTag.isStruct] at hs
      · intro _; simp [IsolatedTag.dataType?, hdt]
      · intro bp hbp; simp [IsolatedTag.bitPosition?] at hbp

/-- C2 witness: the theorem applied to one concrete struct entry
(`symbol_type = 0x8123`) and one concrete BOOL entry
(`symbol_type = 0x2 * 0x100 + 0xC1`), each hypothesis discharged by
evaluation. -/
theorem C2_witness :
    IsolatedTag.templateInstanceId?
        (.struct 5 (0x8123 &&& 0x0FFF) "MyUdt" 0) = some (0x8123 &&& 0x0FFF) ∧
    (2 : Nat) = (0x02C1 >>> 8) &&& 0b111 := by
  have hs := C2_symbol_type_classification ⟨5, "MyUdt", 0x8123⟩
    (.struct 5 (0x8123 &&& 0x0FFF) "MyUdt" 0) (by rfl)
  have hb := C2_symbol_type_classification ⟨6, "MyBit", 0x02C1⟩
    (.atomicBool 6 "MyBit" 0 .BOOL 2) (by rfl)
  exact ⟨hs.2.1 rfl, hb.2.2.2 2 rfl⟩

/-! ### Python two's-complement bit helpers

Python integers are arbitrary-precision two's-complement values: `&` is
`Int.land`, `~` is `Int.not` (`~~~`), and `>>` is the arithmetic shift
`Int.shiftRight`.  `1 << bit` is the nonnegative value `2 ^ bit`, written
`((1 <<< bit : Nat) : Int)` below. -/

/-- `m &&& 2 ^ b` is nonzero exactly when bit `b` of `m` is set. -/
theorem nat_and_two_pow_ne_zero (m b : Nat) :
    (m &&& 2 ^ b ≠ 0) ↔ m.testBit b := by
  constructor
  · intro hne
    by_contra hbit
    apply hne
    apply Nat.eq_of_testBit_eq
    intro i
    simp only [Nat.testBit_and, Nat.testBit_two_pow, Nat.zero_testBit]
    by_cases hbi : b = i
    · subst hbi; simp [Bool.eq_false_iff.mpr hbit]
    · simp [hbi]
  · intro hbit hzero
    have : (m &&& 2 ^ b).testBit b = true := by
      simp [Nat.testBit_and, hbit, Nat.testBit_two_pow]
    rw [hzero] at this
    simp at this

/-- `Nat.ldiff (2 ^ b) m` is nonzero exactly when bit `b` of `m` is clear. -/
theorem nat_ldiff_two_pow_ne_zero (m b : Nat) :
    (Nat.ldiff (2 ^ b) m ≠ 0) ↔ ¬ m.testBit b := by
  constructor
  · intro hne hbit
    apply hne
    apply Nat.eq_of_testBit_eq
    intro i
    simp only [Nat.testBit_ldiff, Nat.testBit_two_pow, Nat.zero_testBit]
    by_cases hbi : b = i
    · subst hbi; simp [hbit]
    · simp [hbi]
  · intro hbit hzero
    have hb : m.testBit b = false := Bool.eq_false_iff.mpr (by simpa using hbit)
    have : (Nat.ldiff (2 ^ b) m).testBit b = true := by
      simp [Nat.testBit_ldiff, Nat.testBit_two_pow, hb]
    rw [hzero] at this
    simp at this

/-- `Nat.ldiff 1 x` is 1 when bit 0 of `x` is clear, and 0 otherwise. -/
theorem nat_ldiff_one (x : Nat) :
    Nat.ldiff 1 x = if x.testBit 0 then 0 else 1 := by
  apply Nat.eq_of_testBit_eq
  intro i
  have h1 : Nat.testBit 1 i = decide (0 = i) := by
    simpa using Nat.testBit_two_pow (n := 0) (m := i)
  by_cases hx : x.testBit 0 <;> by_cases hi : (0 : Nat) = i
  · subst hi
    rw [if_pos hx, Nat.testBit_ldiff]
    simp only [hx, Bool.not_true, Bool.and_false, Nat.zero_testBit]
  · rw [if_pos hx, Nat.testBit_ldiff, h1]
    simp [hi]
  · subst hi
    have hxf : x.testBit 0 = false := Bool.eq_false_iff.mpr (by simpa using hx)
    rw [if_neg hx, Nat.testBit_ldiff]
    simp [hxf]
  · rw [if_neg hx, Nat.testBit_ldiff, h1]
    simp [hi]

/-- Bit `b` of `m` as a parity of the shifted value. -/
theorem testBit_iff_shift_mod (m b : Nat) :
    m.testBit b ↔ (m >>> b) % 2 = 1 := by
  have h := Nat.testBit_shiftRight (x := m) (i := b) (j := 0)
  rw [Nat.testBit_zero, Nat.add_zero] at h
  constructor
  · intro hb
    exact of_decide_eq_true (h.trans hb)
  · intro hm
    rw [← h]
    exact decide_eq_true hm

/-- Bridge between the Python expression the code computes,
`bool(value & (1 << bit))`, and the formula the claims use,
`(value >> bit) & 1 == 1`.  They agree for every Python integer. -/
theorem pyBitTest_eq (v : Int) (b : Nat) :
    (Int.land v ((1 <<< b : Nat) : Int) ≠ 0) ↔
    Int.land (v >>> b) 1 = 1 := by
  rw [Nat.one_shiftLeft]
  cases v with
  | ofNat m =>
    show ((m &&& 2 ^ b : Nat) : Int) ≠ 0 ↔ ((m >>> b &&& 1 : Nat) : Int) = 1
    rw [Nat.and_one_is_mod]
    constructor
    · intro hne
      have hbit : m.testBit b := (nat_and_two_pow_ne_zero m b).mp (by exact_mod_cast hne)
      exact_mod_cast (testBit_iff_shift_mod m b).mp hbit
    · intro h1
      have hmod : (m >>> b) % 2 = 1 := by exact_mod_cast h1
      exact_mod_cast (nat_and_two_pow_ne_zero m b).mpr
        ((testBit_iff_shift_mod m b).mpr hmod)
  | negSucc m =>
    show ((Nat.ldiff (2 ^ b) m : Nat) : Int) ≠ 0 ↔
      ((Nat.ldiff 1 (m >>> b) : Nat) : Int) = 1
    rw [nat_ldiff_one]
    have hsh : (m >>> b).testBit 0 = m.testBit b := by
      rw [Nat.testBit_shiftRight, Nat.add_zero]
    constructor
    · intro hne
      have hbit : ¬ m.testBit b := (nat_ldiff_two_pow_ne_zero m b).mp (by exact_mod_cast hne)
      rw [hsh, if_neg (by simpa using hbit)]
      rfl
    · intro h1
      by_cases hbit : m.testBit b
      · rw [hsh, if_pos hbit] at h1
        exact absurd h1 (by decide)
      · exact_mod_cast (nat_ldiff_two_pow_ne_zero m b).mpr hbit

/-! ### Bit reads from integer hosts (claim C5) -/

/-- Modelled from the spec: `BITS_PER_INT_TYPE`, the width-in-bits table of
the Codec used for bit-mask validation (spec sections 3 and 4.1); it covers
the integer types only, so a lookup for `BOOL` or `REAL` raises `KeyError`
in Python, modelled as `none`. -/
def BITS_PER_INT_TYPE : CipType → Option Nat
  | .SINT => some 8
  | .INT => some 16
  | .DINT => some 32
  | .LINT => some 64
  | .BYTE => some 8
  | .WORD => some 16
  | .DWORD => some 32
  | .LWORD => some 64
  | _ => none

/-- Embeds the bit extraction of `Driver.read_tag` for a single read of bit
`bit` from a decoded host value (clx.py line 444:
`value = bool(value & (1 << bit)) if bit < BITS_PER_INT_TYPE[typ] else None`).
The outer `Option` is the surrounding `try` (a `KeyError` on the width table
becomes `DataError`); the inner `Option Bool` is the Python result, `none`
standing for Python `None`. -/
def read_tag_bit_result (value : Int) (typ : CipType) (bit : Nat) :
    Option (Option Bool) :=
  (BITS_PER_INT_TYPE typ).map fun w =>
    if bit < w then some (decide (Int.land value ((1 <<< bit : Nat) : Int) ≠ 0))
    else none

/-- Embeds the bit extraction of `Driver._parse_multiple_request_read` for
one recorded bit of a multi-read sub-response (clx.py line 265:
`val = bool(value & (1 << bit)) if bit < BITS_PER_INT_TYPE[typ] else None`);
identical to the single-read expression. -/
def multi_read_bit_result (value : Int) (typ : CipType) (bit : Nat) :
    Option (Option Bool) :=
  (BITS_PER_INT_TYPE typ).map fun w =>
    if bit < w then some (decide (Int.land value ((1 <<< bit : Nat) : Int) ≠ 0))
    else none

/-- C5: reading bit `b` of an integer host of type `tau` yields Python `None`
whenever `b >= bits(tau)` and the boolean `(value >> b) & 1 == 1` whenever
`b < bits(tau)`, both in `read_tag` and in the multi-read parser. -/
theorem C5_bit_read_guard (v : Int) (tau : CipType) (w : Nat)
    (hw : BITS_PER_INT_TYPE tau = some w) (b : Nat) :
    (b < w →
      read_tag_bit_result v tau b = some (some (decide (Int.land (v >>> b) 1 = 1))) ∧
      multi_read_bit_result v tau b = some (some (decide (Int.land (v >>> b) 1 = 1)))) ∧
    (w ≤ b →
      read_tag_bit_result v tau b = some none ∧
      multi_read_bit_result v tau b = some none) := by
  have hb : decide (Int.land v ((1 <<< b : Nat) : Int) ≠ 0)
      = decide (Int.land (v >>> b) 1 = 1) := by
    rcases Decidable.em (Int.land v ((1 <<< b : Nat) : Int) ≠ 0) with hp | hn
    · rw [decide_eq_true hp, decide_eq_true ((pyBitTest_eq v b).mp hp)]
    · have hn2 : ¬ Int.land (v >>> b) 1 = 1 := fun hc =>
        hn ((pyBitTest_eq v b).mpr hc)
      rw [decide_eq_false hn, decide_eq_false hn2]
  constructor
  · intro hlt
    rw [read_tag_bit_result, multi_read_bit_result, hw]
    simp only [Option.map_some', if_pos hlt, hb]
    exact ⟨trivial, trivial⟩
  · intro hge
    have hnlt : ¬ b < w := by omega
    rw [read_tag_bit_result, multi_read_bit_result, hw]
    simp only [Option.map_some', if_neg hnlt]
    exact ⟨trivial, trivial⟩

/-- C5 witness: bit 3 of a DINT host value 10 reads as `true`, bit 40 of the
same host reads as Python `None`; hypotheses discharged concretely. -/
theorem C5_witness :
    read_tag_bit_result 10 .DINT 3 = some (some true) ∧
    read_tag_bit_result 10 .DINT 40 = some none := by
  have h3 := C5_bit_read_guard 10 .DINT 32 rfl 3
  have h40 := C5_bit_read_guard 10 .DINT 32 rfl 40
  refine ⟨?_, (h40.2 (by omega)).1⟩
  rw [(h3.1 (by omega)).1]
  decide

/-! ### Read-Modify-Write bit masks (claim C4)

`Driver._make_write_bit_data` (clx.py lines 604-619) builds the
`<mask_size> <or_mask> <and_mask>` body of a Read-Modify-Write request. -/

/-- The four little-endian bytes of a 32-bit value. -/
def bytes4 (n : Nat) : List Nat :=
  [n % 256, n / 256 % 256, n / 2 ^ 16 % 256, n / 2 ^ 24 % 256]

/-- `pack_uint`: `struct.pack` of an unsigned 16-bit value (raises
`struct.error` outside the range, modelled as `none`). -/
def pack_uint (n : Nat) : Option (List Nat) :=
  if n < 2 ^ 16 then some [n % 256, n / 256 % 256] else none

/-- `pack_udint`: `struct.pack` of an unsigned 32-bit value (raises
`struct.error` outside the range, modelled as `none`). -/
def pack_udint (n : Int) : Option (List Nat) :=
  if 0 ≤ n ∧ n < 2 ^ 32 then some (bytes4 n.toNat) else none

/-- The `mask_size` local of `_make_write_bit_data` (lines 608-612). -/
def mask_size_of (bit : Nat) (bool_ary : Bool) : Nat :=
  if bool_ary then 4 else if bit < 8 then 1 else if bit < 16 then 2 else 4

/-- The reassigned `bit` local of `_make_write_bit_data` (line 610). -/
def bit_of (bit : Nat) (bool_ary : Bool) : Nat :=
  if bool_ary then bit % 32 else bit

/-- The `or_mask` local of `_make_write_bit_data` (lines 606, 614-615):
`0`, or-ed with `1 << bit` when the value is truthy. -/
def or_mask_of (bit2 : Nat) (value : Bool) : Int :=
  if value then Int.lor 0 ((1 <<< bit2 : Nat) : Int) else 0

/-- The `and_mask` local of `_make_write_bit_data` (lines 606, 616-617):
32 one bits, and-ed with `~(1 << bit)` when the value is falsy. -/
def and_mask_of (bit2 : Nat) (value : Bool) : Int :=
  if value then 0xFFFFFFFF
  else Int.land 0xFFFFFFFF (~~~((1 <<< bit2 : Nat) : Int))

/-- Embeds `Driver._make_write_bit_data` (clx.py lines 604-619): the masks
are packed as unsigned 32-bit values and truncated to `mask_size` bytes.
`pack_udint` raising `struct.error` (an or-mask `1 << bit` with `bit >= 32`)
is the `none` case. -/
def make_write_bit_data (bit : Nat) (value : Bool) (bool_ary : Bool) :
    Option (List (List Nat)) :=
  match pack_uint (mask_size_of bit bool_ary),
        pack_udint (or_mask_of (bit_of bit bool_ary) value),
        pack_udint (and_mask_of (bit_of bit bool_ary) value) with
  | some ms, some om, some am =>
      some [ms, om.take (mask_size_of bit bool_ary),
            am.take (mask_size_of bit bool_ary)]
  | _, _, _ => none

/-- Python `x & ~y` on nonnegative operands is `Nat.ldiff`. -/
theorem int_land_not_coe (m n : Nat) :
    Int.land (m : Int) (~~~(n : Int)) = (Nat.ldiff m n : Nat) := rfl

/-- Clearing bit `b` of the all-ones `w`-bit mask. -/
theorem ldiff_all_ones (w b : Nat) :
    Nat.ldiff (2 ^ w - 1) (2 ^ b) =
      2 ^ w - 1 - (if b < w then 2 ^ b else 0) := by
  by_cases hbw : b < w
  · rw [if_pos hbw]
    have hlt : 2 ^ b < 2 ^ w := Nat.pow_lt_pow_right (by norm_num) hbw
    have hrw : 2 ^ w - 1 - 2 ^ b = 2 ^ w - (2 ^ b + 1) := by omega
    apply Nat.eq_of_testBit_eq
    intro i
    rw [Nat.testBit_ldiff, hrw, Nat.testBit_two_pow_sub_succ hlt,
      Nat.testBit_two_pow_sub_one, Nat.testBit_two_pow]
  · rw [if_neg hbw]
    apply Nat.eq_of_testBit_eq
    intro i
    rw [Nat.testBit_ldiff, Nat.testBit_two_pow_sub_one, Nat.testBit_two_pow]
    by_cases h1 : i < w <;> by_cases h2 : b = i <;> simp [h1, h2] <;> omega

/-- Truncating the packed 32-bit bytes to `m` bytes keeps the value modulo
`2 ^ (8 * m)`, for the mask sizes 1, 2 and 4. -/
theorem unpackLE_take_bytes4 (n m : Nat) (hn : n < 2 ^ 32)
    (hm : m = 1 ∨ m = 2 ∨ m = 4) :
    unpackLE ((bytes4 n).take m) = n % 2 ^ (8 * m) := by
  rcases hm with hm | hm | hm <;> subst hm <;>
    simp only [bytes4, List.take, unpackLE, List.foldr] <;> omega

/-- `Int.lor 0 (k : Int)` is `k` for a natural `k`. -/
theorem int_zero_lor_coe (k : Nat) : Int.lor 0 (k : Int) = (k : Int) := by
  show ((0 ||| k : Nat) : Int) = (k : Int)
  rw [Nat.zero_or]

/-- Evaluation of the or-mask for a truthy value. -/
theorem or_mask_true (b2 : Nat) :
    or_mask_of b2 true = ((2 ^ b2 : Nat) : Int) := by
  rw [or_mask_of, if_pos rfl, Nat.one_shiftLeft, int_zero_lor_coe]

/-- Evaluation of the or-mask for a falsy value. -/
theorem or_mask_false (b2 : Nat) : or_mask_of b2 false = ((0 : Nat) : Int) := by
  rw [or_mask_of]
  simp

/-- Evaluation of the and-mask for a truthy value. -/
theorem and_mask_true (b2 : Nat) :
    and_mask_of b2 true = ((0xFFFFFFFF : Nat) : Int) := by
  rw [and_mask_of, if_pos rfl]
  norm_cast

/-- Evaluation of the and-mask for a falsy value: all 32 ones with bit `b2`
cleared (a no-op when `b2` is out of the 32-bit range). -/
theorem and_mask_false (b2 : Nat) :
    and_mask_of b2 false =
      ((2 ^ 32 - 1 - (if b2 < 32 then 2 ^ b2 else 0) : Nat) : Int) := by
  rw [and_mask_of]
  simp only [Bool.false_eq_true, if_false]
  have hcast : (0xFFFFFFFF : Int) = ((0xFFFFFFFF : Nat) : Int) := by norm_cast
  have h32 : (0xFFFFFFFF : Nat) = 2 ^ 32 - 1 := by norm_num
  rw [hcast, Nat.one_shiftLeft, int_land_not_coe, h32, ldiff_all_ones]

/-- `pack_udint` on an in-range natural succeeds. -/
theorem pack_udint_coe (n : Nat) (h : n < 2 ^ 32) :
    pack_udint (n : Int) = some (bytes4 n) := by
  rw [pack_udint, if_pos ⟨by positivity, by exact_mod_cast h⟩, Int.toNat_ofNat]

/-- `pack_udint` on an out-of-range natural raises `struct.error`. -/
theorem pack_udint_coe_fail (n : Nat) (h : 2 ^ 32 ≤ n) :
    pack_udint (n : Int) = none := by
  rw [pack_udint, if_neg]
  intro ⟨_, hlt⟩
  have : n < 2 ^ 32 := by exact_mod_cast hlt
  omega

/-- The all-ones 32-bit value truncated to `m` bytes is all ones. -/
theorem allones32_mod (m : Nat) (hm : m = 1 ∨ m = 2 ∨ m = 4) :
    (2 ^ 32 - 1) % 2 ^ (8 * m) = 2 ^ (8 * m) - 1 := by
  rcases hm with hm | hm | hm <;> subst hm <;> decide

/-- The all-ones 32-bit value with one bit cleared, truncated to `m` bytes,
for a bit inside the truncated range. -/
theorem allones_sub_pow_mod (b m : Nat) (hm : m = 1 ∨ m = 2 ∨ m = 4)
    (hb : b < 8 * m) :
    (2 ^ 32 - 1 - 2 ^ b) % 2 ^ (8 * m) = 2 ^ (8 * m) - 1 - 2 ^ b := by
  have h1 : 1 ≤ 2 ^ b := Nat.one_le_two_pow
  rcases hm with hm | hm | hm <;> subst hm
  · have hu : 2 ^ b ≤ 2 ^ 7 := Nat.pow_le_pow_right (by norm_num) (by omega)
    have h7 : (2 : Nat) ^ 7 = 128 := by norm_num
    rw [h7] at hu
    omega
  · have hu : 2 ^ b ≤ 2 ^ 15 := Nat.pow_le_pow_right (by norm_num) (by omega)
    have h15 : (2 : Nat) ^ 15 = 32768 := by norm_num
    rw [h15] at hu
    omega
  · have hu : 2 ^ b ≤ 2 ^ 31 := Nat.pow_le_pow_right (by norm_num) (by omega)
    have h31 : (2 : Nat) ^ 31 = 2147483648 := by norm_num
    rw [h31] at hu
    omega

/-- C4: for a bit write of bit `b` with boolean `v`, a BOOL-array host gets
`mask_size = 4` with `b` reduced modulo 32, otherwise `mask_size` is 1, 2 or
4 by the ranges `b < 8`, `b < 16`, else; the emitted OR mask is `1 << b` when
`v` and 0 otherwise, and the emitted AND mask is the all-ones value of
`mask_size` bytes, with bit `b` cleared when `v` is false. -/
theorem C4_write_bit_masks (bit : Nat) (value bool_ary : Bool)
    (ms om am : List Nat)
    (h : make_write_bit_data bit value bool_ary = some [ms, om, am]) :
    unpackLE ms =
      (if bool_ary then 4 else if bit < 8 then 1 else if bit < 16 then 2 else 4) ∧
    om.length =
      (if bool_ary then 4 else if bit < 8 then 1 else if bit < 16 then 2 else 4) ∧
    am.length =
      (if bool_ary then 4 else if bit < 8 then 1 else if bit < 16 then 2 else 4) ∧
    unpackLE om =
      (if value then 2 ^ (if bool_ary then bit % 32 else bit) else 0) ∧
    unpackLE am =
      2 ^ (8 * (if bool_ary then 4 else if bit < 8 then 1 else if bit < 16 then 2 else 4))
        - 1 -
      (if value then 0
       else if (if bool_ary then bit % 32 else bit) <
           8 * (if bool_ary then 4 else if bit < 8 then 1 else if bit < 16 then 2 else 4)
         then 2 ^ (if bool_ary then bit % 32 else bit) else 0) := by
  have e1 : (if bool_ary then (4 : Nat) else if bit < 8 then 1 else if bit < 16 then 2 else 4)
      = mask_size_of bit bool_ary := rfl
  have e2 : (if bool_ary then bit % 32 else bit) = bit_of bit bool_ary := rfl
  rw [e1, e2]
  have hM : mask_size_of bit bool_ary = 1 ∨ mask_size_of bit bool_ary = 2 ∨
      mask_size_of bit bool_ary = 4 := by
    rw [mask_size_of]; split_ifs <;> simp
  have hiff : (bit_of bit bool_ary < 8 * mask_size_of bit bool_ary) ↔
      (bit_of bit bool_ary < 32) := by
    rw [bit_of, mask_size_of]
    cases bool_ary <;> simp <;> split_ifs <;> omega
  rw [make_write_bit_data] at h
  split at h
  case _ ms' om' am' hpu hpo hpa =>
    simp only [Option.some.injEq, List.cons.injEq, and_true] at h
    obtain ⟨hms, hom, ham⟩ := h
    subst hms hom ham
    have hMlt : mask_size_of bit bool_ary < 2 ^ 16 := by rcases hM with h | h | h <;> omega
    rw [pack_uint, if_pos hMlt] at hpu
    have hms' : ms' = [mask_size_of bit bool_ary % 256, mask_size_of bit bool_ary / 256 % 256] := by
      exact (Option.some.injEq _ _ ▸ hpu).symm
    -- OR mask value and AND mask value depend on `value`
    cases value with
    | false =>
      rw [or_mask_false] at hpo
      rw [pack_udint_coe 0 (by norm_num)] at hpo
      have hom' : om' = bytes4 0 := by exact (Option.some.injEq _ _ ▸ hpo).symm
      rw [and_mask_false] at hpa
      have hNlt : 2 ^ 32 - 1 - (if bit_of bit bool_ary < 32 then 2 ^ bit_of bit bool_ary else 0)
          < 2 ^ 32 := by omega
      rw [pack_udint_coe _ hNlt] at hpa
      have ham' : am' = bytes4
          (2 ^ 32 - 1 - (if bit_of bit bool_ary < 32 then 2 ^ bit_of bit bool_ary else 0)) := by
        exact (Option.some.injEq _ _ ▸ hpa).symm
      subst hms' hom' ham'
      refine ⟨?_, ?_, ?_, ?_, ?_⟩
      · simp only [unpackLE, List.foldr]
        rcases hM with h | h | h <;> rw [h]
      · simp only [List.length_take, bytes4, List.length_cons, List.length_nil]
        rcases hM with h | h | h <;> rw [h] <;> omega
      · simp only [List.length_take, bytes4, List.length_cons, List.length_nil]
        rcases hM with h | h | h <;> rw [h] <;> omega
      · rw [unpackLE_take_bytes4 _ _ (by norm_num) hM]
        simp
      · rw [unpackLE_take_bytes4 _ _ (by omega) hM]
        simp only [Bool.false_eq_true, if_false]
        by_cases hb32 : bit_of bit bool_ary < 32
        · rw [if_pos hb32, if_pos (hiff.mpr hb32)]
          exact allones_sub_pow_mod _ _ hM (hiff.mpr hb32)
        · rw [if_neg hb32, if_neg (fun hc => hb32 (hiff.mp hc)), Nat.sub_zero,
            Nat.sub_zero, allones32_mod _ hM]
    | true =>
      rw [or_mask_true] at hpo
      by_cases hb32 : bit_of bit bool_ary < 32
      · rw [pack_udint_coe _ (Nat.pow_lt_pow_right (by norm_num) hb32)] at hpo
        have hom' : om' = bytes4 (2 ^ bit_of bit bool_ary) := by
          exact (Option.some.injEq _ _ ▸ hpo).symm
        rw [and_mask_true] at hpa
        rw [show (0xFFFFFFFF : Nat) = 2 ^ 32 - 1 from by norm_num] at hpa
        rw [pack_udint_coe _ (by omega)] at hpa
        have ham' : am' = bytes4 (2 ^ 32 - 1) := by
          exact (Option.some.injEq _ _ ▸ hpa).symm
        subst hms' hom' ham'
        refine ⟨?_, ?_, ?_, ?_, ?_⟩
        · simp only [unpackLE, List.foldr]
          rcases hM with h | h | h <;> rw [h]
        · simp only [List.length_take, bytes4, List.length_cons, List.length_nil]
          rcases hM with h | h | h <;> rw [h] <;> omega
        · simp only [List.length_take, bytes4, List.length_cons, List.length_nil]
          rcases hM with h | h | h <;> rw [h] <;> omega
        · rw [unpackLE_take_bytes4 _ _ (Nat.pow_lt_pow_right (by norm_num) hb32) hM]
          rw [if_pos rfl, Nat.mod_eq_of_lt
            (Nat.pow_lt_pow_right (by norm_num) (hiff.mpr hb32))]
        · rw [unpackLE_take_bytes4 _ _ (by omega) hM, allones32_mod _ hM]
          simp
      · exfalso
        rw [pack_udint_coe_fail _ (Nat.pow_le_pow_right (by norm_num) (by omega))] at hpo
        exact Option.noConfusion hpo
  case _ =>
    exact absurd h (by simp)

/-- C4 witness: the theorem applied at a concrete write that sets bit 3 of a
BOOL-array element (mask size 4, or-mask `2 ^ 3`, and-mask all ones), the
hypothesis discharged by evaluation. -/
theorem C4_witness :
    unpackLE [4, 0] = 4 ∧ unpackLE [8, 0, 0, 0] = 2 ^ 3 := by
  have h := C4_write_bit_masks 3 true true [4, 0] [8, 0, 0, 0]
    [255, 255, 255, 255] (by decide)
  refine ⟨?_, ?_⟩
  · simpa using h.1
  · simpa using h.2.2.2.1

/-! ### Template caches (claim C9)

`Driver._get_structure_makeup` (clx.py lines 803-837) and
`Driver._read_template` (lines 839-885) consult per-instance caches before
performing any network exchange; the exchange itself (framing, sending and
the reply parser that fills `self._buffer`) is abstracted as an oracle
function argument, which is legitimate because a fixed controller answers a
fixed session deterministically. -/

/-- The `_buffer` produced by `_parse_structure_makeup_attributes`
(lines 125-174): either an `Error` entry or the four attributes. -/
inductive StructMakeup
  | err (message : String)
  | attrs (object_definition_size : Int) (structure_size : Int)
      (member_count : Nat) (structure_handle : Nat)
deriving DecidableEq

/-- The cache-relevant state of a `Driver` instance, with an instrumentation
counter for completed network round trips. -/
structure CacheState where
  struct_cache : List (Nat × StructMakeup)
  template_cache : List (Nat × List Nat)
  net_trips : Nat
deriving DecidableEq

/-- Python dict lookup on an association list (later inserts at the head
shadow older entries, matching overwriting semantics). -/
def cacheFind {α : Type} : List (Nat × α) → Nat → Option α
  | [], _ => none
  | (k, v) :: rest, i => if k = i then some v else cacheFind rest i

/-- Embeds `Driver._get_structure_makeup` (clx.py lines 803-837): if the
instance id is not cached, perform the Get Attributes exchange (oracle
`net`, one round trip) and store `self._buffer` in `_struct_cache`; return
the cached entry. -/
def get_structure_makeup (net : Nat → StructMakeup) (s : CacheState)
    (i : Nat) : StructMakeup × CacheState :=
  match cacheFind s.struct_cache i with
  | some b => (b, s)
  | none =>
    (net i, { s with struct_cache := (i, net i) :: s.struct_cache,
                     net_trips := s.net_trips + 1 })

/-- Embeds `Driver._read_template` (clx.py lines 839-885): if the instance
id is not cached, run the Read Template fragmentation loop (oracle `net`,
counted as one completed exchange) and store the accumulated `_buffer` in
`_template_cache`; return the cached entry. -/
def read_template (net : Nat → Int → List Nat) (s : CacheState)
    (i : Nat) (object_definition_size : Int) : List Nat × CacheState :=
  match cacheFind s.template_cache i with
  | some b => (b, s)
  | none =>
    (net i object_definition_size,
     { s with template_cache := (i, net i object_definition_size) :: s.template_cache,
              net_trips := s.net_trips + 1 })

/-- A freshly inserted cache entry is found. -/
theorem cacheFind_cons_self {α : Type} (c : List (Nat × α)) (i : Nat) (b : α) :
    cacheFind ((i, b) :: c) i = some b := by
  simp [cacheFind]

/-- C9: within one session, a second call to `_get_structure_makeup` or
`_read_template` on the same instance id returns the same result as the
first and leaves the state (caches and network round-trip count) untouched:
the cached value is returned and no further exchange happens. -/
theorem C9_cache_idempotence (netS : Nat → StructMakeup)
    (netT : Nat → Int → List Nat) (s : CacheState) (i : Nat)
    (object_definition_size : Int) :
    (get_structure_makeup netS (get_structure_makeup netS s i).2 i).1
      = (get_structure_makeup netS s i).1 ∧
    (get_structure_makeup netS (get_structure_makeup netS s i).2 i).2
      = (get_structure_makeup netS s i).2 ∧
    (read_template netT (read_template netT s i object_definition_size).2 i
        object_definition_size).1
      = (read_template netT s i object_definition_size).1 ∧
    (read_template netT (read_template netT s i object_definition_size).2 i
        object_definition_size).2
      = (read_template netT s i object_definition_size).2 := by
  refine ⟨?_, ?_, ?_, ?_⟩ <;>
    rcases hS : cacheFind s.struct_cache i with _ | bS <;>
    rcases hT : cacheFind s.template_cache i with _ | bT <;>
    simp [get_structure_makeup, read_template, hS, hT, cacheFind_cons_self]

/-! ### String reads (claim C8)

`Driver.read_string` (clx.py lines 1043-1058) selects a length (the supplied
one, or the `LEN` member read via `read_tag`), reads that many SINT elements
of the `DATA` member via `read_array`, converts signed bytes back to
character codes, and joins all non-NUL characters.  The two tag reads are
abstracted as oracle arguments (`lenRead` is the `(value, type)` pair of
`read_tag(tag.LEN)` or `none`; `readArr n` is the `(index, value)` list of
`read_array(tag.DATA, n)` or `none`).  The result is the list of character
codes of the returned string; `none` is Python `None` (or an uncaught
`chr` ValueError for an out-of-range code). -/

/-- Embeds `Driver.read_string` (clx.py lines 1043-1058). -/
def read_string (suppliedLen : Option Int)
    (lenRead : Option (Int × String))
    (readArr : Int → Option (List (Nat × Int))) : Option (List Int) :=
  let length : Option Int :=
    match suppliedLen with
    | none =>
      match lenRead with
      | some (v, _) => some v
      | none => none
    | some l => some l
  match length with
  | none => none
  | some l =>
    if l ≠ 0 then
      match readArr l with
      | some values =>
        if values ≠ [] then
          let codes := values.map fun p => if p.2 < 0 then p.2 + 256 else p.2
          if codes.all (fun c => decide (0 ≤ c) && decide (c < 1114112)) then
            some (codes.filter fun c => c != 0)
          else none
        else none
      | none => none
    else none

/-- The reading of the claim: remove only the trailing NUL characters. -/
def trimTrailingNulls (codes : List Int) : List Int :=
  (codes.reverse.dropWhile fun c => c == 0).reverse

/-- C8, counterexample.  The claim states that `read_string` trims trailing
NUL characters and preserves every other character in order; but on the SINT
values `[65, 0, 66]` (an interior NUL) the code returns the codes `[65, 66]`,
while trimming only trailing NULs would give `[65, 0, 66]`. -/
theorem C8_counterexample :
    read_string (some 3) none
        (fun l => if l = 3 then some [(0, 65), (1, 0), (2, 66)] else none)
      = some [65, 66] ∧
    trimTrailingNulls [65, 0, 66] = [65, 0, 66] ∧
    ([65, 66] : List Int) ≠ [65, 0, 66] := by
  refine ⟨by decide, by decide, by decide⟩

/-- Filtering a list that keeps no leading-block element equals dropping the
leading block, when nothing filtered remains afterwards. -/
theorem filter_eq_dropWhile_of_all (l : List Int)
    (h : ((l.dropWhile fun c => c == 0).all fun c => c != 0) = true) :
    (l.filter fun c => c != 0) = l.dropWhile fun c => c == 0 := by
  induction l with
  | nil => rfl
  | cons c t ih =>
    by_cases hc : c = 0
    · subst hc
      rw [List.dropWhile_cons_of_pos (by simp)] at h ⊢
      rw [List.filter_cons_of_neg (by simp)]
      exact ih h
    · rw [List.dropWhile_cons_of_neg (by simpa using hc)] at h ⊢
      rw [List.filter_cons_of_pos (by simpa using hc)]
      rw [List.all_cons, Bool.and_eq_true] at h
      rw [List.filter_eq_self.mpr (List.all_eq_true.mp h.2)]

/-- C8, amended.  `read_string` uses the supplied length (or the value read
from `LEN`), reads that many SINT elements from `DATA`, maps every negative
byte `c` to the character code `c + 256` and every non-negative byte to `c`,
and removes every NUL character (not only the trailing ones); when NULs occur
only at the end of the string this coincides with trimming trailing NULs,
and then every other character is preserved in order. -/
theorem C8_amended_read_string (lenRead : Option (Int × String))
    (readArr : Int → Option (List (Nat × Int))) (l : Int)
    (values : List (Nat × Int))
    (hr : readArr l = some values) (hl : l ≠ 0) (hv : values ≠ [])
    (hrange : ∀ p ∈ values, -128 ≤ p.2 ∧ p.2 ≤ 127) :
    read_string (some l) lenRead readArr
      = some ((values.map fun p => if p.2 < 0 then p.2 + 256 else p.2).filter
          fun c => c != 0) ∧
    (((values.map fun p => if p.2 < 0 then p.2 + 256 else p.2).reverse.dropWhile
        (fun c => c == 0)).all (fun c => c != 0) = true →
      read_string (some l) lenRead readArr
        = some (trimTrailingNulls
            (values.map fun p => if p.2 < 0 then p.2 + 256 else p.2))) := by
  have hall : ((values.map fun p => if p.2 < 0 then p.2 + 256 else p.2).all
      fun c => decide (0 ≤ c) && decide (c < 1114112)) = true := by
    rw [List.all_eq_true]
    intro c hc
    obtain ⟨p, hp, hpc⟩ := List.mem_map.mp hc
    obtain ⟨hlo, hhi⟩ := hrange p hp
    subst hpc
    by_cases hneg : p.2 < 0
    · rw [if_pos hneg]
      simp only [Bool.and_eq_true, decide_eq_true_eq]
      omega
    · rw [if_neg hneg]
      simp only [Bool.and_eq_true, decide_eq_true_eq]
      omega
  have h1 : read_string (some l) lenRead readArr
      = some ((values.map fun p => if p.2 < 0 then p.2 + 256 else p.2).filter
          fun c => c != 0) := by
    rw [read_string]
    simp only [hr, if_pos hl, hv, if_pos hall]
    simp [hv]
  refine ⟨h1, fun htrail => ?_⟩
  rw [h1, trimTrailingNulls, ← filter_eq_dropWhile_of_all _ htrail,
    List.filter_reverse, List.reverse_reverse]

/-- C8 witness: the amended theorem applied to a concrete read whose SINT
values are `[65, 0]` (one trailing NUL), every hypothesis discharged by
evaluation: the result is the single character code 65. -/
theorem C8_witness :
    read_string (some 2) none
        (fun l => if l = 2 then some [(0, 65), (1, 0)] else none)
      = some [65] := by
  have h := C8_amended_read_string none
    (fun l => if l = 2 then some [(0, 65), (1, 0)] else none)
    2 [(0, 65), (1, 0)] (by decide) (by decide) (by decide) (by decide)
  exact (h.2 (by decide)).trans (by decide)

/-! ### Multiple Service Packet read replies (claim C3)

`Driver._parse_multiple_request_read` (clx.py lines 238-276) walks the
offset table of a Multiple Service Packet reply and emits one or more result
tuples per sub-response. -/

/-- Modelled from the spec: `DATA_FUNCTION_SIZE`, the per-type byte width
table of the Codec (spec sections 3 and 4.1). -/
def DATA_FUNCTION_SIZE : CipType → Nat
  | .BOOL => 1
  | .SINT => 1
  | .INT => 2
  | .DINT => 4
  | .LINT => 8
  | .REAL => 4
  | .BYTE => 1
  | .WORD => 2
  | .DWORD => 4
  | .LWORD => 8

/-- A Python value appearing in a read-result tuple. -/
inductive PyValue
  | int (i : Int)
  | real (bits : Nat)
  | bool (b : Bool)
  | pynone
deriving DecidableEq

/-- Modelled from the spec: `UNPACK_DATA_FUNCTION`, the per-type
little-endian decoder of the Codec (spec section 4.1): two's-complement for
the signed types, unsigned for the others, and the raw 32-bit pattern for
`REAL` (`f32` decoding itself is floating point and plays no role in the
claims).  `struct.unpack` raises on a slice of the wrong length. -/
def UNPACK_DATA_FUNCTION (t : CipType) (bs : List Nat) : Option PyValue :=
  if bs.length = DATA_FUNCTION_SIZE t then
    match t with
    | .SINT => some (.int (toSigned 8 (unpackLE bs)))
    | .INT => some (.int (toSigned 16 (unpackLE bs)))
    | .DINT => some (.int (toSigned 32 (unpackLE bs)))
    | .LINT => some (.int (toSigned 64 (unpackLE bs)))
    | .REAL => some (.real (unpackLE bs))
    | _ => some (.int (unpackLE bs))
  else none

/-- `unpack_usint` of the 1-byte slice `bs[i:i+1]` (raises when empty). -/
def byteAt (bs : List Nat) (i : Nat) : Option Nat := bs.get? i

/-- A result tuple `(tag name, value, data type)` of a multi read. -/
abbrev ReadTuple := String × PyValue × Option String

/-- Embeds the per-bit expression of `_parse_multiple_request_read`
(clx.py line 265), shared with `read_tag` (line 444): the `KeyError` of
`BITS_PER_INT_TYPE` and the `TypeError` of `&` on a non-integer value are
the outer `none`. -/
def bitVal (value : PyValue) (typ : CipType) (bit : Nat) : Option PyValue :=
  match BITS_PER_INT_TYPE typ with
  | none => none
  | some w =>
    if bit < w then
      match value with
      | .int v => some (.bool (decide (Int.land v ((1 <<< bit : Nat) : Int) ≠ 0)))
      | _ => none
    else some .pynone

/-- The `for bit in tag_bits[tag]` loop of `_parse_multiple_request_read`
(clx.py lines 263-266): one `(f'{tag}.{bit}', val, 'BOOL')` tuple per
recorded bit. -/
def bitTuples (tag : String) (value : PyValue) (typ : CipType) :
    List Nat → Option (List ReadTuple)
  | [] => some []
  | bit :: rest =>
    match bitVal value typ bit with
    | none => none
    | some v =>
      match bitTuples tag value typ rest with
      | none => none
      | some ts => some ((tag ++ "." ++ toString bit, v, some "BOOL") :: ts)

/-- The `for index in range(number_of_service_replies)` loop of
`_parse_multiple_request_read` (clx.py lines 252-272), counting down
`r = n - index` with an accumulator.  Each iteration reads the two-byte
offset at `position`, the general status of the sub-reply it points to, and
either decodes `(data_type, value)` (status 0) or records
`(tag, None, None)`; when bits were recorded for the tag, one tuple per bit
is appended instead of the value tuple.  Any slice/lookup failure raises
`DataError` (`none`). -/
def pmrrGo (reply : List Nat) (tags : List String)
    (tag_bits : String → List Nat) (n : Nat) :
    Nat → List ReadTuple → Option (List ReadTuple)
  | 0, acc => some acc.reverse
  | r + 1, acc =>
    match unpack_uint (pySlice reply (50 + 2 * (n - (r + 1) + 1))
        (50 + 2 * (n - (r + 1) + 1) + 2)) with
    | none => none
    | some off =>
      match byteAt reply (50 + off + 2) with
      | none => none
      | some general_status =>
        match tags.get? (n - (r + 1)) with
        | none => none
        | some tag =>
          if general_status = 0 then
            match unpack_uint (pySlice reply (50 + off + 4) (50 + off + 6)) with
            | none => none
            | some code =>
              match I_DATA_TYPE code with
              | none => none
              | some typ =>
                match UNPACK_DATA_FUNCTION typ (pySlice reply (50 + off + 6)
                    (50 + off + 6 + DATA_FUNCTION_SIZE typ)) with
                | none => none
                | some value =>
                  if tag_bits tag ≠ [] then
                    match bitTuples tag value typ (tag_bits tag) with
                    | none => none
                    | some ts => pmrrGo reply tags tag_bits n r (ts.reverse ++ acc)
                  else
                    pmrrGo reply tags tag_bits n r ((tag, value, some typ.name) :: acc)
          else
            pmrrGo reply tags tag_bits n r ((tag, .pynone, none) :: acc)

/-- Embeds `Driver._parse_multiple_request_read` (clx.py lines 238-276):
read `number_of_service_replies` at offset 50 and run the per-sub-reply
loop. -/
def parse_multiple_request_read (reply : List Nat) (tags : List String)
    (tag_bits : String → List Nat) : Option (List ReadTuple) :=
  match unpack_uint (pySlice reply 50 52) with
  | none => none
  | some n => pmrrGo reply tags tag_bits n n []

/-- A concrete Multiple Service Packet reply carrying one sub-response:
50 header bytes, `n = 1`, one offset (4) pointing at a sub-reply with
general status 0, data type `0xC4` (DINT) and value 1. -/
def c3Reply : List Nat :=
  List.replicate 50 0 ++ [1, 0, 4, 0, 0, 0, 0, 0, 196, 0, 1, 0, 0, 0]

/-- C3, counterexample.  The claim states that a reply with `n` sub-responses
yields exactly `n` result tuples; but when two bits of the same tag were
requested, the single sub-response for that tag yields two tuples: on
`c3Reply` (`n = 1`) the parser emits the two tuples `A.0` and `A.1`. -/
theorem C3_counterexample :
    parse_multiple_request_read c3Reply ["A"]
        (fun t => if t = "A" then [0, 1] else [])
      = some [("A.0", .bool true, some "BOOL"), ("A.1", .bool false, some "BOOL")] ∧
    unpack_uint (pySlice c3Reply 50 52) = some 1 ∧
    (2 : Nat) ≠ 1 := by
  refine ⟨by decide, by decide, by decide⟩

/-- Loop invariant for `pmrrGo` when no bits were recorded: each remaining
iteration appends exactly one tuple, whose tag is the sub-request tag at the
matching index. -/
theorem pmrrGo_no_bits (reply : List Nat) (tags : List String)
    (tag_bits : String → List Nat) (hb : ∀ t, tag_bits t = []) (n : Nat) :
    ∀ (r : Nat) (acc res : List ReadTuple), r ≤ n →
      pmrrGo reply tags tag_bits n r acc = some res →
      ∃ tail, res = acc.reverse ++ tail ∧ tail.length = r ∧
        ∀ (j : Nat) (tpl : ReadTuple), tail.get? j = some tpl →
          tags.get? (n - r + j) = some tpl.1 := by
  intro r
  induction r with
  | zero =>
    intro acc res _ h
    rw [pmrrGo] at h
    refine ⟨[], ?_, rfl, ?_⟩
    · simpa using h.symm
    · intro j tpl htpl
      simp at htpl
  | succ r ih =>
    intro acc res hr h
    rw [pmrrGo] at h
    split at h
    · exact absurd h (by simp)
    split at h
    · exact absurd h (by simp)
    split at h
    · exact absurd h (by simp)
    rename_i tag htag
    split at h
    · -- general status 0
      split at h
      · exact absurd h (by simp)
      split at h
      · exact absurd h (by simp)
      rename_i typ htyp
      split at h
      · exact absurd h (by simp)
      rename_i value hvalue
      rw [if_neg (by simp [hb])] at h
      obtain ⟨tail, he, hlen, htail⟩ := ih _ _ (by omega) h
      refine ⟨(tag, value, some typ.name) :: tail, ?_, by simp [hlen], ?_⟩
      · rw [he, List.reverse_cons, List.append_assoc]
        rfl
      · intro j tpl htpl
        cases j with
        | zero =>
          simp only [List.get?] at htpl
          cases htpl
          simpa using htag
        | succ j' =>
          simp only [List.get?] at htpl
          have := htail j' tpl htpl
          have harith : n - (r + 1) + (j' + 1) = n - r + j' := by omega
          rw [harith]
          exact this
    · -- non-zero general status
      obtain ⟨tail, he, hlen, htail⟩ := ih _ _ (by omega) h
      refine ⟨(tag, .pynone, none) :: tail, ?_, by simp [hlen], ?_⟩
      · rw [he, List.reverse_cons, List.append_assoc]
        rfl
      · intro j tpl htpl
        cases j with
        | zero =>
          simp only [List.get?] at htpl
          cases htpl
          simpa using htag
        | succ j' =>
          simp only [List.get?] at htpl
          have := htail j' tpl htpl
          have harith : n - (r + 1) + (j' + 1) = n - r + j' := by omega
          rw [harith]
          exact this

/-- C3, amended.  When no bit sub-reads were recorded (`tag_bits` empty), a
Multiple Service Packet read reply with `n` sub-responses yields exactly `n`
result tuples and the tuple at position `i` carries the tag of the `i`-th
sub-request.  In general a sub-request whose tag has `k` recorded bits
contributes `k` tuples (one per bit) instead of one, so the total can differ
from `n`. -/
theorem C3_amended_multi_read_count (reply : List Nat) (tags : List String)
    (tag_bits : String → List Nat) (hb : ∀ t, tag_bits t = [])
    (n : Nat) (hn : unpack_uint (pySlice reply 50 52) = some n)
    (res : List ReadTuple)
    (h : parse_multiple_request_read reply tags tag_bits = some res) :
    res.length = n ∧
    ∀ (j : Nat) (tpl : ReadTuple), res.get? j = some tpl →
      tags.get? j = some tpl.1 := by
  rw [parse_multiple_request_read, hn] at h
  obtain ⟨tail, he, hlen, htail⟩ :=
    pmrrGo_no_bits reply tags tag_bits hb n n [] res (le_refl n) h
  subst he
  refine ⟨by simpa using hlen, fun j tpl htpl => ?_⟩
  have := htail j tpl (by simpa using htpl)
  simpa using this

/-- C3 witness: the amended theorem applied to `c3Reply` with no recorded
bits: exactly one tuple, carrying the tag of the only sub-request. -/
theorem C3_witness :
    parse_multiple_request_read c3Reply ["A"] (fun _ => [])
      = some [("A", .int 1, some "DINT")] ∧
    (["A"].get? 0 = some "A") := by
  have h := C3_amended_multi_read_count c3Reply ["A"] (fun _ => [])
    (fun _ => rfl) 1 (by decide) [("A", .int 1, some "DINT")] (by decide)
  exact ⟨by decide, h.2 0 ("A", .int 1, some "DINT") (by decide)⟩

/-! ### Tag-name preparation (`_prep_bools`, clx.py lines 504-527)

String plumbing for the bit-of-integer convention: a trailing `.N` (or a
bracketed index for BOOL arrays) is split off the base tag. -/

/-- Last character test (Python `tag.endswith(c)`). -/
def strEndsWith (s : String) (c : Char) : Bool :=
  match s.toList.getLast? with
  | some d => d = c
  | none => false

/-- Python `tag[:-1]`. -/
def strDropLast (s : String) : String :=
  (s.toList.dropLast).asString

/-- Python `s.rsplit(sep, maxsplit=1)` when `sep` occurs in `s`: the parts
before and after the last occurrence of `sep`; `none` when `sep` does not
occur (where the Python two-name unpacking raises `ValueError`). -/
def rsplitOnceAux (sep : Char) : List Char → Option (List Char × List Char)
  | [] => none
  | c :: rest =>
    match rsplitOnceAux sep rest with
    | some (l, r) => some (c :: l, r)
    | none => if c = sep then some ([], rest) else none

/-- `rsplitOnceAux` on strings. -/
def rsplitOnce (sep : Char) (s : String) : Option (String × String) :=
  (rsplitOnceAux sep s.toList).map fun pr => (pr.1.asString, pr.2.asString)

/-- Python `int(s)` restricted to the plain digit strings that arise from
tag suffixes (`Counts.3`, `Flags[37]`); any other string raises
`ValueError`, modelled as `none`. -/
def parseDigits (s : String) : Option Nat :=
  if s.toList ≠ [] ∧ s.toList.all (fun c => c.isDigit) then
    some (s.toList.foldl (fun acc c => acc * 10 + (c.toNat - 48)) 0)
  else none

/-- Embeds `Driver._prep_bools` (clx.py lines 504-527): for a BOOL write of
a bracketed index, return `(f'{base}[{idx//32}]', idx)`; otherwise split a
trailing `.bit`; on any parsing failure return `(tag, None)`. -/
def prep_bools (tag : String) (typ : String) (bits_only : Bool) :
    String × Option Nat :=
  if typ ≠ "BOOL" then (tag, none)
  else if bits_only = false && strEndsWith tag ']' then
    match rsplitOnce '[' (strDropLast tag) with
    | some (base, idxs) =>
      match parseDigits idxs with
      | some idx => (base ++ "[" ++ toString (idx / 32) ++ "]", some idx)
      | none => (tag, none)
    | none => (tag, none)
  else
    match rsplitOnce '.' tag with
    | some (base, bits) =>
      match parseDigits bits with
      | some bit => (base, some bit)
      | none => (tag, none)
    | none => (tag, none)

/-- Embeds `Driver._dword_to_boolarray` (clx.py lines 529-532):
`f'{base}[{i * 32 + bit}]'` for `base[i]`; `none` when the `int`
conversion would raise (which then escapes uncaught). -/
def dword_to_boolarray (tag : String) (bit : Nat) : Option String :=
  match rsplitOnce '[' tag with
  | some (base, tmp) =>
    match parseDigits (strDropLast tmp) with
    | some i => some (base ++ "[" ++ toString (i * 32 + bit) ++ "]")
    | none => none
  | none => none

/-! ### Multi-tag writes (claim C7)

`Driver._write_tag_multi_write` (clx.py lines 534-571) frames one
sub-request per tuple.  `create_tag_rp` and `PACK_DATA_FUNCTION` live in
`cip_base`; they are passed as oracle arguments (`rpOf`, `packOf`), modelled
from the spec as partial functions (`none` = request path cannot be built,
resp. `struct.error` while encoding the value).  Values are modelled as
Python integers; `S_DATA_TYPE[typ]` lookup on the type-name string raises
`LookupError` for an unknown name. -/

/-- `S_DATA_TYPE` lookup keyed by the Python type-name string. -/
def S_DATA_TYPE_str (typ : String) : Option Nat :=
  if typ = "BOOL" then some 0xC1
  else if typ = "SINT" then some 0xC2
  else if typ = "INT" then some 0xC3
  else if typ = "DINT" then some 0xC4
  else if typ = "LINT" then some 0xC5
  else if typ = "REAL" then some 0xCA
  else if typ = "BYTE" then some 0xD1
  else if typ = "WORD" then some 0xD2
  else if typ = "DWORD" then some 0xD3
  else if typ = "LWORD" then some 0xD4
  else none

/-- Outcome of `_write_tag_multi_write`. -/
inductive MultiWriteResult
  | ret (rp_list : List (List Nat)) (tags_added : List (String × Int × String))
  | retNone
  | exn
deriving DecidableEq

/-- The per-tuple loop of `_write_tag_multi_write` (clx.py lines 537-567).
A path failure returns `None` for the whole batch (status 8); a
`LookupError` / `struct.error` while framing drops the tuple and records
status 8; an uncaught exception in `_dword_to_boolarray` is `exn`. -/
def wtmwGo (rpOf : String → Option (List Nat))
    (packOf : String → Int → Option (List Nat)) :
    List (String × Int × String) → List (List Nat) →
    List (String × Int × String) → Option (Nat × String) →
    MultiWriteResult × Option (Nat × String)
  | [], rps, added, st => (.ret rps.reverse added.reverse, st)
  | (name, value, typ) :: rest, rps, added, st =>
    match rpOf (prep_bools name typ false).1 with
    | none =>
      (.retNone, some (8, "Cannot create tag req. packet. write_tag will not be executed"))
    | some rp =>
      match (prep_bools name typ false).2 with
      | some bit =>
        match make_write_bit_data bit (decide (value ≠ 0))
            (strContains (prep_bools name typ false).1 "[") with
        | none =>
          wtmwGo rpOf packOf rest rps added (some (8, "Tag removed from write list"))
        | some parts =>
          if typ = "BOOL" && strContains (prep_bools name typ false).1 "[" then
            match dword_to_boolarray (prep_bools name typ false).1 bit with
            | none => (.exn, st)
            | some newName =>
              wtmwGo rpOf packOf rest ((0x4E :: rp ++ parts.join) :: rps)
                ((newName, value, typ) :: added) st
          else
            wtmwGo rpOf packOf rest ((0x4E :: rp ++ parts.join) :: rps)
              (((prep_bools name typ false).1 ++ "." ++ toString bit, value, typ) :: added) st
      | none =>
        match S_DATA_TYPE_str typ with
        | none =>
          wtmwGo rpOf packOf rest rps added (some (8, "Tag removed from write list"))
        | some code =>
          match packOf typ value with
          | none =>
            wtmwGo rpOf packOf rest rps added (some (8, "Tag removed from write list"))
          | some vbytes =>
            wtmwGo rpOf packOf rest
              ((0x4D :: rp ++ [code % 256, code / 256 % 256] ++ [1, 0] ++ vbytes) :: rps)
              ((name, value, typ) :: added) st

/-- Embeds `Driver._write_tag_multi_write` (clx.py lines 534-571). -/
def write_tag_multi_write (rpOf : String → Option (List Nat))
    (packOf : String → Int → Option (List Nat))
    (tags : List (String × Int × String)) :
    MultiWriteResult × Option (Nat × String) :=
  wtmwGo rpOf packOf tags [] [] none

/-- The name under which a framed tuple is recorded in `tags_added`
(clx.py lines 550-553); `none` when `_dword_to_boolarray` raises. -/
def renameOf (t : String × Int × String) : Option (String × Int × String) :=
  match (prep_bools t.1 t.2.2 false).2 with
  | some bit =>
    if t.2.2 = "BOOL" && strContains (prep_bools t.1 t.2.2 false).1 "[" then
      (dword_to_boolarray (prep_bools t.1 t.2.2 false).1 bit).map
        fun nn => (nn, t.2.1, t.2.2)
    else some ((prep_bools t.1 t.2.2 false).1 ++ "." ++ toString bit, t.2.1, t.2.2)
  | none => some t

/-- Whether a tuple survives framing (its value encodes), and if so under
which recorded name: the specification-side characterisation of one
iteration of the multi-write loop. -/
def keptTuple (packOf : String → Int → Option (List Nat))
    (t : String × Int × String) : Option (String × Int × String) :=
  match (prep_bools t.1 t.2.2 false).2 with
  | some bit =>
    match make_write_bit_data bit (decide (t.2.1 ≠ 0))
        (strContains (prep_bools t.1 t.2.2 false).1 "[") with
    | none => none
    | some _ => renameOf t
  | none =>
    match S_DATA_TYPE_str t.2.2 with
    | none => none
    | some _ =>
      match packOf t.2.2 t.2.1 with
      | none => none
      | some _ => renameOf t

/-- Request-path oracle for the C7 counterexample: only `Bad` fails. -/
def rpC7 (s : String) : Option (List Nat) :=
  if s = "Bad" then none else some [0x91, 1, 66, 0]

/-- Value-encoding oracle for the C7 counterexample: always succeeds. -/
def packC7 (_ : String) (_ : Int) : Option (List Nat) := some [2, 0, 0, 0]

/-- C7, counterexample.  The claim states that a tuple whose request path
cannot be built is removed from the batch while the remaining tuples are
still framed and sent; but a single unbuildable path makes
`_write_tag_multi_write` return `None` for the whole batch: with
`("Bad", ...)` present nothing is framed, although `("Good", ...)` alone
frames fine. -/
theorem C7_counterexample :
    (write_tag_multi_write rpC7 packC7 [("Bad", 1, "DINT"), ("Good", 2, "DINT")]).1
      = .retNone ∧
    rpC7 "Good" ≠ none ∧ packC7 "DINT" 2 ≠ none ∧
    (write_tag_multi_write rpC7 packC7 [("Good", 2, "DINT")]).1
      = .ret [[0x4D, 0x91, 1, 66, 0, 196, 0, 1, 0, 2, 0, 0, 0]]
          [("Good", 2, "DINT")] := by
  refine ⟨by decide, by decide, by decide, by decide⟩

/-- Loop invariant of the multi-write framing: when every request path
builds and no name rewrite raises, the loop returns normally and the
recorded batch is exactly the tuples whose values encoded, in order. -/
theorem wtmwGo_spec (rpOf : String → Option (List Nat))
    (packOf : String → Int → Option (List Nat)) :
    ∀ (ts : List (String × Int × String)) (rps : List (List Nat))
      (added : List (String × Int × String)) (st : Option (Nat × String)),
      (∀ t ∈ ts, rpOf (prep_bools t.1 t.2.2 false).1 ≠ none) →
      (∀ t ∈ ts, renameOf t ≠ none) →
      ∃ reqs st2,
        wtmwGo rpOf packOf ts rps added st
          = (.ret (rps.reverse ++ reqs)
              (added.reverse ++ ts.filterMap (keptTuple packOf)), st2) ∧
        reqs.length = (ts.filterMap (keptTuple packOf)).length := by
  intro ts
  induction ts with
  | nil =>
    intro rps added st _ _
    exact ⟨[], st, by simp [wtmwGo], by simp⟩
  | cons t rest ih =>
    intro rps added st hpath hname
    obtain ⟨name, value, typ⟩ := t
    have hp0 := hpath (name, value, typ) (by simp)
    have hn0 := hname (name, value, typ) (by simp)
    have hpath' : ∀ t ∈ rest, rpOf (prep_bools t.1 t.2.2 false).1 ≠ none :=
      fun t ht => hpath t (by simp [ht])
    have hname' : ∀ t ∈ rest, renameOf t ≠ none :=
      fun t ht => hname t (by simp [ht])
    rcases hrp : rpOf (prep_bools name typ false).1 with _ | rp
    · exact absurd hrp hp0
    rcases hob : (prep_bools name typ false).2 with _ | bit
    · -- plain write: S_DATA_TYPE and PACK decide whether the tuple is kept
      rcases hsdt : S_DATA_TYPE_str typ with _ | code
      · have hkt : keptTuple packOf (name, value, typ) = none := by
          simp only [keptTuple, hob, hsdt]
        obtain ⟨reqs, st2, heq, hlen⟩ := ih rps added
          (some (8, "Tag removed from write list")) hpath' hname'
        refine ⟨reqs, st2, ?_, ?_⟩
        · rw [wtmwGo]
          simp only [hrp, hob, hsdt, List.filterMap_cons, hkt]
          exact heq
        · simp only [List.filterMap_cons, hkt]
          exact hlen
      · rcases hpk : packOf typ value with _ | vbytes
        · have hkt : keptTuple packOf (name, value, typ) = none := by
            simp only [keptTuple, hob, hsdt, hpk]
          obtain ⟨reqs, st2, heq, hlen⟩ := ih rps added
            (some (8, "Tag removed from write list")) hpath' hname'
          refine ⟨reqs, st2, ?_, ?_⟩
          · rw [wtmwGo]
            simp only [hrp, hob, hsdt, hpk, List.filterMap_cons, hkt]
            exact heq
          · simp only [List.filterMap_cons, hkt]
            exact hlen
        · have hkt : keptTuple packOf (name, value, typ) = some (name, value, typ) := by
            simp only [keptTuple, hob, hsdt, hpk, renameOf]
          obtain ⟨reqs, st2, heq, hlen⟩ := ih
            ((0x4D :: rp ++ [code % 256, code / 256 % 256] ++ [1, 0] ++ vbytes) :: rps)
            ((name, value, typ) :: added) st hpath' hname'
          refine ⟨(0x4D :: rp ++ [code % 256, code / 256 % 256] ++ [1, 0] ++ vbytes) :: reqs,
            st2, ?_, ?_⟩
          · rw [wtmwGo]
            simp only [hrp, hob, hsdt, hpk, List.filterMap_cons, hkt]
            rw [heq]
            simp
          · simp only [List.filterMap_cons, hkt]
            simpa using hlen
    · -- bit write (Read-Modify-Write)
      rcases hmk : make_write_bit_data bit (decide (value ≠ 0))
          (strContains (prep_bools name typ false).1 "[") with _ | parts
      · have hkt : keptTuple packOf (name, value, typ) = none := by
          simp only [keptTuple, hob, hmk]
        obtain ⟨reqs, st2, heq, hlen⟩ := ih rps added
          (some (8, "Tag removed from write list")) hpath' hname'
        refine ⟨reqs, st2, ?_, ?_⟩
        · rw [wtmwGo]
          simp only [hrp, hob, hmk, List.filterMap_cons, hkt]
          exact heq
        · simp only [List.filterMap_cons, hkt]
          exact hlen
      · by_cases hba : (typ = "BOOL" && strContains (prep_bools name typ false).1 "[") = true
        · rcases hdw : dword_to_boolarray (prep_bools name typ false).1 bit with _ | nn
          · exfalso
            apply hn0
            simp only [renameOf, hob, if_pos hba, hdw, Option.map_none']
          · have hkt : keptTuple packOf (name, value, typ) = some (nn, value, typ) := by
              simp only [keptTuple, hob, hmk, renameOf, if_pos hba, hdw, Option.map_some']
            obtain ⟨reqs, st2, heq, hlen⟩ := ih
              ((0x4E :: rp ++ parts.join) :: rps) ((nn, value, typ) :: added) st
              hpath' hname'
            refine ⟨(0x4E :: rp ++ parts.join) :: reqs, st2, ?_, ?_⟩
            · rw [wtmwGo]
              simp only [hrp, hob, hmk, if_pos hba, hdw, List.filterMap_cons, hkt]
              rw [heq]
              simp
            · simp only [List.filterMap_cons, hkt]
              simpa using hlen
        · have hkt : keptTuple packOf (name, value, typ)
              = some ((prep_bools name typ false).1 ++ "." ++ toString bit, value, typ) := by
            simp only [keptTuple, hob, hmk, renameOf, if_neg hba]
          obtain ⟨reqs, st2, heq, hlen⟩ := ih
            ((0x4E :: rp ++ parts.join) :: rps)
            (((prep_bools name typ false).1 ++ "." ++ toString bit, value, typ) :: added) st
            hpath' hname'
          refine ⟨(0x4E :: rp ++ parts.join) :: reqs, st2, ?_, ?_⟩
          · rw [wtmwGo]
            simp only [hrp, hob, hmk, if_neg hba, List.filterMap_cons, hkt]
            rw [heq]
            simp
          · simp only [List.filterMap_cons, hkt]
            simpa using hlen

/-- C7, amended.  In a multi-tag write, a tuple whose value cannot be encoded
(`LookupError` on the type name or `struct.error` while packing) is removed
from the batch with a status entry recorded, and the remaining tuples are
still framed as sub-requests; but a tuple whose request path cannot be built
aborts the whole batch (`_write_tag_multi_write` records status 8 and returns
`None`, framing nothing) rather than being dropped individually. -/
theorem C7_amended_multi_write (rpOf : String → Option (List Nat))
    (packOf : String → Int → Option (List Nat))
    (tags : List (String × Int × String))
    (hpath : ∀ t ∈ tags, rpOf (prep_bools t.1 t.2.2 false).1 ≠ none)
    (hname : ∀ t ∈ tags, renameOf t ≠ none) :
    ∃ reqs st2,
      write_tag_multi_write rpOf packOf tags
        = (.ret reqs (tags.filterMap (keptTuple packOf)), st2) ∧
      reqs.length = (tags.filterMap (keptTuple packOf)).length := by
  obtain ⟨reqs, st2, heq, hlen⟩ := wtmwGo_spec rpOf packOf tags [] [] none hpath hname
  exact ⟨reqs, st2, by simpa [write_tag_multi_write] using heq, hlen⟩

/-- The recorded batch of a normal multi-write return. -/
def MultiWriteResult.addedOf : MultiWriteResult → Option (List (String × Int × String))
  | .ret _ a => some a
  | _ => none

/-- Request-path oracle for the C7 witness: every path builds. -/
def rpW (_ : String) : Option (List Nat) := some [0x91, 1, 65, 0]

/-- Value-encoding oracle for the C7 witness: REAL values fail to encode. -/
def packW (typ : String) (_ : Int) : Option (List Nat) :=
  if typ = "REAL" then none else some [9, 0, 0, 0]

/-- C7 witness: the amended theorem applied to a concrete batch whose second
tuple fails to encode: the batch returns normally with exactly the first
tuple recorded; every hypothesis discharged by evaluation. -/
theorem C7_witness :
    ((write_tag_multi_write rpW packW
        [("Good", 2, "DINT"), ("Bad", 3, "REAL")]).1).addedOf
      = some [("Good", 2, "DINT")] := by
  obtain ⟨reqs, st2, heq, hlen⟩ := C7_amended_multi_write rpW packW
    [("Good", 2, "DINT"), ("Bad", 3, "REAL")] (by decide) (by decide)
  rw [heq]
  show some (List.filterMap (keptTuple packW) [("Good", 2, "DINT"), ("Bad", 3, "REAL")])
    = some [("Good", 2, "DINT")]
  decide

/-! ### Error asymmetry of `read_tag` framing (claim C10)

`Driver.read_tag` (clx.py lines 364-449) frames its request before sending:
in the multi-tag path (lines 388-407) a request path that cannot be built
sets status 6 and raises `DataError` (line 400) before anything is sent; in
the single-tag path (lines 409-414) the same failure sets status 6 and
returns `None` without raising.  The sequence number and the CPF envelope
are not modelled; `rpOf` is the `create_tag_rp` oracle. -/

/-- Lookup in the `tag_bits` defaultdict (key present iff it was written). -/
def lookupTB : List (String × List Nat) → String → Option (List Nat)
  | [], _ => none
  | (k, v) :: rest, t => if k = t then some v else lookupTB rest t

/-- `tag_bits[t].append(bit)` on the defaultdict: extend the entry or create
a one-element one. -/
def insertTB : List (String × List Nat) → String → Nat → List (String × List Nat)
  | [], k, bit => [(k, [bit])]
  | (q, bits) :: rest, k, bit =>
    if q = k then (q, bits ++ [bit]) :: rest
    else (q, bits) :: insertTB rest k bit

/-- The multi-tag framing loop of `read_tag` (clx.py lines 390-406): prep
each tag, decide `read = bit is None or t not in tag_bits` before recording
the bit, and for every read tag build `Read Tag` sub-request bytes; the
first unbuildable path raises `DataError` with status 6.  Returns
`(tags_read, tag_bits, rp_list)`. -/
def rtmGo (rpOf : String → Option (List Nat)) :
    List String → List (String × List Nat) → List String → List (List Nat) →
    Except (Nat × String) (List String × List (String × List Nat) × List (List Nat))
  | [], tb, tread, rps => .ok (tread.reverse, tb, rps.reverse)
  | t :: rest, tb, tread, rps =>
    if ((prep_bools t "BOOL" true).2.isNone ||
        (lookupTB tb (prep_bools t "BOOL" true).1).isNone) = true then
      match rpOf (prep_bools t "BOOL" true).1 with
      | none => .error (6, "Cannot create tag request packet. read_tag will not be executed")
      | some rp =>
        rtmGo rpOf rest
          (match (prep_bools t "BOOL" true).2 with
           | some bit => insertTB tb (prep_bools t "BOOL" true).1 bit
           | none => tb)
          ((prep_bools t "BOOL" true).1 :: tread)
          ((0x4C :: rp ++ [1, 0]) :: rps)
    else
      rtmGo rpOf rest
        (match (prep_bools t "BOOL" true).2 with
         | some bit => insertTB tb (prep_bools t "BOOL" true).1 bit
         | none => tb)
        tread rps

/-- Embeds the multi-tag framing phase of `read_tag`. -/
def read_tag_multi_frame (rpOf : String → Option (List Nat)) (tags : List String) :
    Except (Nat × String) (List String × List (String × List Nat) × List (List Nat)) :=
  rtmGo rpOf tags [] [] []

/-- Number of `send_unit_data` calls the multi-tag path performs: the send
(clx.py line 425) is reached only when framing returned normally. -/
def read_tag_multi_sends (rpOf : String → Option (List Nat))
    (tags : List String) : Nat :=
  match read_tag_multi_frame rpOf tags with
  | .ok _ => 1
  | .error _ => 0

/-- Embeds the single-tag framing phase of `read_tag` (clx.py lines
409-423): an unbuildable path sets status 6 and returns `None` (no raise);
otherwise the `Read Tag` message is framed. -/
def read_tag_single_frame (rpOf : String → Option (List Nat)) (tag : String) :
    Option (List Nat) × Option (Nat × String) :=
  match rpOf (prep_bools tag "BOOL" true).1 with
  | none =>
    (none, some (6, "Cannot create tag request packet. read_tag will not be executed"))
  | some rp => (some (0x4C :: rp.length / 2 :: rp ++ [1, 0]), none)

/-- Every key of `insertTB tb k bit` is `k` or a key of `tb`. -/
theorem insertTB_keys (tb : List (String × List Nat)) (k : String) (bit : Nat) :
    ∀ p ∈ insertTB tb k bit, p.1 = k ∨ ∃ q ∈ tb, p.1 = q.1 := by
  induction tb with
  | nil =>
    intro p hp
    simp only [insertTB, List.mem_singleton] at hp
    subst hp
    exact Or.inl rfl
  | cons e rest ih =>
    obtain ⟨q, bits⟩ := e
    intro p hp
    rw [insertTB] at hp
    by_cases hq : q = k
    · rw [if_pos hq] at hp
      rcases List.mem_cons.mp hp with hp | hp
      · subst hp; exact Or.inl hq
      · exact Or.inr ⟨p, List.mem_cons_of_mem _ hp, rfl⟩
    · rw [if_neg hq] at hp
      rcases List.mem_cons.mp hp with hp | hp
      · subst hp; exact Or.inr ⟨(q, bits), List.mem_cons_self _ _, rfl⟩
      · rcases ih p hp with h | ⟨q', hq', he⟩
        · exact Or.inl h
        · exact Or.inr ⟨q', List.mem_cons_of_mem _ hq', he⟩

/-- A successful `lookupTB` means the key is present. -/
theorem lookupTB_mem (tb : List (String × List Nat)) (t : String) (v : List Nat)
    (h : lookupTB tb t = some v) : ∃ p ∈ tb, p.1 = t := by
  induction tb with
  | nil => exact absurd h (by simp [lookupTB])
  | cons e rest ih =>
    obtain ⟨q, bits⟩ := e
    rw [lookupTB] at h
    by_cases hq : q = t
    · exact ⟨(q, bits), List.mem_cons_self _ _, hq⟩
    · rw [if_neg hq] at h
      obtain ⟨p, hp, he⟩ := ih h
      exact ⟨p, List.mem_cons_of_mem _ hp, he⟩

/-- If every base already recorded in `tag_bits` has a buildable path and
some tag of the remaining list has an unbuildable one, the framing loop
raises `DataError` with status 6. -/
theorem rtmGo_raises (rpOf : String → Option (List Nat)) :
    ∀ (tags : List String) (tb : List (String × List Nat))
      (tread : List String) (rps : List (List Nat)),
      (∀ p ∈ tb, rpOf p.1 ≠ none) →
      (∃ t ∈ tags, rpOf (prep_bools t "BOOL" true).1 = none) →
      ∃ msg, rtmGo rpOf tags tb tread rps = .error (6, msg) := by
  intro tags
  induction tags with
  | nil =>
    intro tb tread rps _ hex
    obtain ⟨t, ht, _⟩ := hex
    exact absurd ht (by simp)
  | cons t rest ih =>
    intro tb tread rps htb hex
    have htb' : ∀ p ∈ (match (prep_bools t "BOOL" true).2 with
        | some bit => insertTB tb (prep_bools t "BOOL" true).1 bit
        | none => tb), rpOf p.1 ≠ none ∨ p.1 = (prep_bools t "BOOL" true).1 := by
      rcases hob : (prep_bools t "BOOL" true).2 with _ | bit
      · intro p hp
        exact Or.inl (htb p hp)
      · intro p hp
        rcases insertTB_keys tb _ bit p hp with h | ⟨q, hq, he⟩
        · exact Or.inr h
        · rw [he]
          exact Or.inl (htb q hq)
    by_cases hread : ((prep_bools t "BOOL" true).2.isNone ||
        (lookupTB tb (prep_bools t "BOOL" true).1).isNone) = true
    · rcases hrp : rpOf (prep_bools t "BOOL" true).1 with _ | rp
      · refine ⟨"Cannot create tag request packet. read_tag will not be executed", ?_⟩
        rw [rtmGo, if_pos hread, hrp]
      · have hex' : ∃ t' ∈ rest, rpOf (prep_bools t' "BOOL" true).1 = none := by
          obtain ⟨t', ht', hfail⟩ := hex
          rcases List.mem_cons.mp ht' with he | he
          · subst he
            rw [hfail] at hrp
            exact absurd hrp (by simp)
          · exact ⟨t', he, hfail⟩
        have htb2 : ∀ p ∈ (match (prep_bools t "BOOL" true).2 with
            | some bit => insertTB tb (prep_bools t "BOOL" true).1 bit
            | none => tb), rpOf p.1 ≠ none := by
          intro p hp
          rcases htb' p hp with h | h
          · exact h
          · rw [h, hrp]
            simp
        obtain ⟨msg, hmsg⟩ := ih _ ((prep_bools t "BOOL" true).1 :: tread)
          ((0x4C :: rp ++ [1, 0]) :: rps) htb2 hex'
        refine ⟨msg, ?_⟩
        rw [rtmGo, if_pos hread, hrp]
        exact hmsg
    · -- read = false: the base of `t` is already recorded, hence buildable
      have hne : rpOf (prep_bools t "BOOL" true).1 ≠ none := by
        rw [Bool.or_eq_true, not_or] at hread
        obtain ⟨-, hlk⟩ := hread
        rcases hlkv : lookupTB tb (prep_bools t "BOOL" true).1 with _ | v
        · rw [hlkv] at hlk
          simp at hlk
        · obtain ⟨p, hp, he⟩ := lookupTB_mem tb _ v hlkv
          rw [← he]
          exact htb p hp
      have hex' : ∃ t' ∈ rest, rpOf (prep_bools t' "BOOL" true).1 = none := by
        obtain ⟨t', ht', hfail⟩ := hex
        rcases List.mem_cons.mp ht' with he | he
        · subst he
          exact absurd hfail hne
        · exact ⟨t', he, hfail⟩
      have htb2 : ∀ p ∈ (match (prep_bools t "BOOL" true).2 with
          | some bit => insertTB tb (prep_bools t "BOOL" true).1 bit
          | none => tb), rpOf p.1 ≠ none := by
        intro p hp
        rcases htb' p hp with h | h
        · exact h
        · rw [h]
          exact hne
      obtain ⟨msg, hmsg⟩ := ih _ tread rps htb2 hex'
      refine ⟨msg, ?_⟩
      rw [rtmGo, if_neg hread]
      exact hmsg

/-- C10: `read_tag` handles an unbuildable request path asymmetrically: the
single-tag path sets status 6 and returns `None` without raising, while a
multi-tag call containing such a tag raises `DataError` (status 6) during
framing, so no request is sent. -/
theorem C10_read_tag_error_asymmetry (rpOf : String → Option (List Nat))
    (tag : String) (tags : List String)
    (hs : rpOf (prep_bools tag "BOOL" true).1 = none)
    (hm : ∃ t ∈ tags, rpOf (prep_bools t "BOOL" true).1 = none) :
    read_tag_single_frame rpOf tag
      = (none, some (6, "Cannot create tag request packet. read_tag will not be executed")) ∧
    (∃ msg, read_tag_multi_frame rpOf tags = .error (6, msg)) ∧
    read_tag_multi_sends rpOf tags = 0 := by
  obtain ⟨msg, hmsg⟩ := rtmGo_raises rpOf tags [] [] [] (by simp) hm
  refine ⟨?_, ⟨msg, hmsg⟩, ?_⟩
  · rw [read_tag_single_frame, hs]
  · rw [read_tag_multi_sends, read_tag_multi_frame, hmsg]

/-- Request-path oracle for the C10 witness: only `Bad` fails. -/
def rpC10 (s : String) : Option (List Nat) :=
  if s = "Bad" then none else some [0x91, 4, 71, 111, 111, 100]

/-- C10 witness: the theorem applied to the single tag `Bad` and to the
multi-tag call `["Good", "Bad"]`, hypotheses discharged by evaluation. -/
theorem C10_witness :
    read_tag_single_frame rpC10 "Bad"
      = (none, some (6, "Cannot create tag request packet. read_tag will not be executed")) ∧
    read_tag_multi_sends rpC10 ["Good", "Bad"] = 0 := by
  have h := C10_read_tag_error_asymmetry rpC10 "Bad" ["Good", "Bad"]
    (by decide) (by decide)
  exact ⟨h.1, h.2.2⟩

end Clx
